import Mathlib

/-!
# Verification of the 3d-fly simulation core

Shallow embedding of the flight-dynamics, arena-constraint, weapon and
dead-reckoning code of the `3d-fly` repository, over exact real arithmetic.

Modelling conventions:
* `Cesium.Cartesian3` is modelled by `Vec3` (three real components);
  `Cesium.Quaternion` by `Quat`; `Cesium.Matrix3` by `Mat3` (three columns).
* JavaScript floating-point arithmetic is modelled by exact real arithmetic.
* `Cesium.Cartesian3.magnitude` is `Real.sqrt` of the dot square, exactly as
  the library computes it; `normalize` divides componentwise by the magnitude
  (on the zero vector the library yields NaN; in this model division by zero
  yields 0, and every theorem below that touches `normalize` carries the
  nonzero hypothesis the running code satisfies).
* Wall-clock reads (`Date.now()`, `performance.now()`) are threaded through as
  explicit `now` parameters; JS `Map`s are association lists in insertion
  order, which is the iteration order JS guarantees.
* The numeric constant blocks of `src/utils/constants.ts` that the spec lists
  as injectable configuration (`PHYSICS`) are a parameter record; the weapon
  and dead-reckoning constants are fixed definitions with their source values.
-/

set_option maxHeartbeats 1000000

/-- Model of `Cesium.Cartesian3`. -/
@[ext] structure Vec3 where
  x : ℝ
  y : ℝ
  z : ℝ

namespace Vec3

instance : Add Vec3 := ⟨fun a b => ⟨a.x + b.x, a.y + b.y, a.z + b.z⟩⟩

instance : Sub Vec3 := ⟨fun a b => ⟨a.x - b.x, a.y - b.y, a.z - b.z⟩⟩

instance : Neg Vec3 := ⟨fun a => ⟨-a.x, -a.y, -a.z⟩⟩

instance : SMul ℝ Vec3 := ⟨fun c a => ⟨c * a.x, c * a.y, c * a.z⟩⟩

instance : Zero Vec3 := ⟨⟨0, 0, 0⟩⟩

/-- `Cesium.Cartesian3.dot`. -/
def dot (a b : Vec3) : ℝ := a.x * b.x + a.y * b.y + a.z * b.z

/-- `Cesium.Cartesian3.cross`. -/
def cross (a b : Vec3) : Vec3 :=
  ⟨a.y * b.z - a.z * b.y, a.z * b.x - a.x * b.z, a.x * b.y - a.y * b.x⟩

/-- `Cesium.Cartesian3.magnitudeSquared`. -/
def normSq (a : Vec3) : ℝ := a.x * a.x + a.y * a.y + a.z * a.z

/-- `Cesium.Cartesian3.magnitude`. -/
noncomputable def norm (a : Vec3) : ℝ := Real.sqrt a.normSq

/-- `Cesium.Cartesian3.distance left right = magnitude (left - right)`. -/
noncomputable def dist (a b : Vec3) : ℝ := (a - b).norm

/-- `Cesium.Cartesian3.normalize`: componentwise division by the magnitude. -/
noncomputable def normalize (a : Vec3) : Vec3 := ⟨a.x / a.norm, a.y / a.norm, a.z / a.norm⟩

/-- `Cesium.Cartesian3.lerp start end t = (1-t)*start + t*end`. -/
def lerp (s e : Vec3) (t : ℝ) : Vec3 := (1 - t) • s + t • e

end Vec3

/-- Model of `Cesium.Quaternion`. -/
@[ext] structure Quat where
  x : ℝ
  y : ℝ
  z : ℝ
  w : ℝ

namespace Quat

/-- `Cesium.Quaternion.multiply(left, right)`: the Hamilton product, with the
exact component arrangement of the Cesium source. -/
def mul (l r : Quat) : Quat :=
  ⟨l.w * r.x + l.x * r.w + l.y * r.z - l.z * r.y,
   l.w * r.y - l.x * r.z + l.y * r.w + l.z * r.x,
   l.w * r.z + l.x * r.y - l.y * r.x + l.z * r.w,
   l.w * r.w - l.x * r.x - l.y * r.y - l.z * r.z⟩

/-- `Cesium.Quaternion.magnitudeSquared`. -/
def normSq (q : Quat) : ℝ := q.x * q.x + q.y * q.y + q.z * q.z + q.w * q.w

/-- `Cesium.Quaternion.magnitude`. -/
noncomputable def norm (q : Quat) : ℝ := Real.sqrt q.normSq

/-- `Cesium.Quaternion.normalize`: componentwise division by the magnitude
(the Cesium source multiplies by the reciprocal of the magnitude). -/
noncomputable def normalize (q : Quat) : Quat :=
  ⟨q.x / q.norm, q.y / q.norm, q.z / q.norm, q.w / q.norm⟩

/-- `Cesium.Quaternion.fromAxisAngle(axis, angle)`: the Cesium source first
normalizes the axis, then returns `(sin(θ/2)·axis, cos(θ/2))`. -/
noncomputable def fromAxisAngle (axis : Vec3) (angle : ℝ) : Quat :=
  let n := Vec3.normalize axis
  let s := Real.sin (angle / 2)
  ⟨s * n.x, s * n.y, s * n.z, Real.cos (angle / 2)⟩

end Quat

/-- Model of `Cesium.Matrix3`, stored as its three columns (Cesium stores
matrices column-major). -/
@[ext] structure Mat3 where
  c0 : Vec3
  c1 : Vec3
  c2 : Vec3

namespace Mat3

/-- `Cesium.Matrix3.multiplyByVector`. -/
def mulVec (m : Mat3) (v : Vec3) : Vec3 := v.x • m.c0 + v.y • m.c1 + v.z • m.c2

/-- `Cesium.Matrix3.fromQuaternion`, columns of the standard rotation matrix
with the component expressions of the Cesium source. -/
def fromQuaternion (q : Quat) : Mat3 :=
  ⟨⟨q.x * q.x - q.y * q.y - q.z * q.z + q.w * q.w,
    2 * (q.x * q.y + q.z * q.w),
    2 * (q.x * q.z - q.y * q.w)⟩,
   ⟨2 * (q.x * q.y - q.z * q.w),
    -(q.x * q.x) + q.y * q.y - q.z * q.z + q.w * q.w,
    2 * (q.y * q.z + q.x * q.w)⟩,
   ⟨2 * (q.x * q.z + q.y * q.w),
    2 * (q.y * q.z - q.x * q.w),
    -(q.x * q.x) - q.y * q.y + q.z * q.z + q.w * q.w⟩⟩

/-- `Cesium.Matrix3.determinant`. -/
def det (m : Mat3) : ℝ := Vec3.dot m.c0 (Vec3.cross m.c1 m.c2)

/-- `Cesium.Matrix3.inverse`: adjugate over determinant.  The rows of the
inverse are the cross products of column pairs divided by the determinant. -/
noncomputable def inverse (m : Mat3) : Mat3 :=
  let d := m.det
  let u := Vec3.cross m.c1 m.c2
  let v := Vec3.cross m.c2 m.c0
  let w := Vec3.cross m.c0 m.c1
  ⟨⟨u.x / d, v.x / d, w.x / d⟩, ⟨u.y / d, v.y / d, w.y / d⟩, ⟨u.z / d, v.z / d, w.z / d⟩⟩

end Mat3

/-!
## Local tangent (East-North-Up) frame

Model of the rotation part of `Cesium.Transforms.eastNorthUpToFixedFrame`.
Cesium computes the up axis as the WGS84 geodetic surface normal; this model
uses a spherical planet, whose surface normal at `p` is `p` normalized — the
structure relevant to the claims (a position-dependent tangent frame whose
third column is the local up direction) is identical.
-/

/-- Local up (tangent-frame third axis) at position `p`. -/
noncomputable def localUp (p : Vec3) : Vec3 := Vec3.normalize p

/-- Local east (tangent-frame first axis) at position `p`. -/
noncomputable def localEast (p : Vec3) : Vec3 := Vec3.normalize ⟨-p.y, p.x, 0⟩

/-- Local north (tangent-frame second axis) at position `p`. -/
noncomputable def localNorth (p : Vec3) : Vec3 := Vec3.cross (localUp p) (localEast p)

/-- Rotation part of `Cesium.Transforms.eastNorthUpToFixedFrame(p)`: the
matrix whose columns are east, north and up at `p`. -/
noncomputable def enuToEcef (p : Vec3) : Mat3 := ⟨localEast p, localNorth p, localUp p⟩

/-!
## Shared simulation data types (`src/types/game.ts`)
-/

/-- `AircraftState` from `src/types/game.ts`. -/
structure AircraftState where
  position : Vec3
  orientation : Quat
  velocity : Vec3
  angularVelocity : Vec3
  throttle : ℝ
  speed : ℝ

/-- `InputState` from `src/types/game.ts`. -/
structure InputState where
  pitch : ℝ
  roll : ℝ
  yaw : ℝ
  throttleUp : Bool
  throttleDown : Bool
  fireMissile : Bool
  fireGun : Bool

/-- The fields of `Player` (`src/types/game.ts`) that the weapon system
reads: position and liveness.  The remaining fields (username, health,
kill/death counters, timestamps) are never consulted by the embedded code. -/
structure Player where
  position : Vec3
  isAlive : Bool

/-- JS `Map.get`, on an insertion-ordered association list. -/
def mapGet {α : Type} (l : List (String × α)) (k : String) : Option α :=
  (l.find? fun pr => pr.1 == k).map Prod.snd

/-- JS `Map.set`, on an insertion-ordered association list: replaces an
existing key in place, otherwise appends. -/
def mapSet {α : Type} (l : List (String × α)) (k : String) (v : α) : List (String × α) :=
  if (l.find? fun pr => pr.1 == k).isSome then
    l.map fun pr => if pr.1 == k then (k, v) else pr
  else l ++ [(k, v)]

/-!
## Flight dynamics model

`src/unnamed/part_007` — the ENU-frame `FlightModel` class.  (A stale copy of
an earlier, ECEF-only revision of the same class sits at
`src/src/game/physics/FlightModel.ts`; the game-arena component and the unit
tests both call the two-argument `getForwardDirection(position, orientation)`
and the ENU-gravity behaviour of part_007, so part_007 is the operative
flight model and is what is embedded here.  The one-argument
`getForwardDirection(orientation)` of the stale revision is still what
`useWeapons.ts` calls, and is embedded separately below for the weapon
system.)

The `PHYSICS` constant block is passed as a `Params` record, with the field
values of `src/utils/constants.ts` packaged as `PHYSICS` below.
-/

/-- The `PHYSICS` configuration block of `src/utils/constants.ts`. -/
structure Params where
  MASS : ℝ
  MAX_THRUST : ℝ
  IDLE_THRUST : ℝ
  WING_AREA : ℝ
  LIFT_COEFFICIENT : ℝ
  DRAG_COEFFICIENT : ℝ
  AIR_DENSITY : ℝ
  GRAVITY : ℝ
  MIN_SPEED : ℝ
  MAX_SPEED : ℝ
  CRUISE_SPEED : ℝ
  MAX_PITCH_RATE : ℝ
  MAX_YAW_RATE : ℝ
  MAX_ROLL_RATE : ℝ
  PITCH_SENSITIVITY : ℝ
  ROLL_SENSITIVITY : ℝ
  YAW_SENSITIVITY : ℝ
  ANGULAR_DAMPING : ℝ
  THROTTLE_RATE : ℝ

/-- The concrete values of the `PHYSICS` block in `src/utils/constants.ts`. -/
def PHYSICS : Params :=
  ⟨12000, 130000, 20000, 28, 1.2, 0.025, 1.225, 9.81,
   80, 600, 250, 2.0, 1.0, 4.0, 3.0, 5.0, 1.5, 0.95, 0.5⟩

namespace FlightModel

/-- `FlightModel.updateThrottle` (part_007 lines 89–100). -/
noncomputable def updateThrottle (P : Params) (throttle : ℝ) (input : InputState) (dt : ℝ) : ℝ :=
  let t1 := if input.throttleUp then throttle + P.THROTTLE_RATE * dt else throttle
  let t2 := if input.throttleDown then t1 - P.THROTTLE_RATE * dt else t1
  max 0 (min 1 t2)

/-- `FlightModel.updateAngularVelocity` (part_007 lines 107–146): damping,
speed-derated control input, per-axis clamping (x by the pitch-rate limit,
y by the roll-rate limit, z by the yaw-rate limit; yaw input enters with a
minus sign). -/
noncomputable def updateAngularVelocity (P : Params) (angularVelocity : Vec3) (input : InputState)
    (speed dt : ℝ) : Vec3 :=
  let effectiveness := min 1 (max 0 ((speed - P.MIN_SPEED) / (P.CRUISE_SPEED - P.MIN_SPEED)))
  let ax := angularVelocity.x * P.ANGULAR_DAMPING + input.pitch * P.PITCH_SENSITIVITY * effectiveness * dt
  let ay := angularVelocity.y * P.ANGULAR_DAMPING + input.roll * P.ROLL_SENSITIVITY * effectiveness * dt
  let az := angularVelocity.z * P.ANGULAR_DAMPING - input.yaw * P.YAW_SENSITIVITY * effectiveness * dt
  ⟨max (-P.MAX_PITCH_RATE) (min P.MAX_PITCH_RATE ax),
   max (-P.MAX_ROLL_RATE) (min P.MAX_ROLL_RATE ay),
   max (-P.MAX_YAW_RATE) (min P.MAX_YAW_RATE az)⟩

/-- `FlightModel.updateOrientation` (part_007 lines 152–188, identical in the
stale revision at FlightModel.ts lines 120–155): exponential-map integration
with a small-angle short-circuit, right-composition, renormalization. -/
noncomputable def updateOrientation (orientation : Quat) (angularVelocity : Vec3)
    (dt : ℝ) : Quat :=
  let angle := Real.sqrt (angularVelocity.x * angularVelocity.x +
    angularVelocity.y * angularVelocity.y + angularVelocity.z * angularVelocity.z) * dt
  if angle < 0.0001 then orientation
  else
    let axis : Vec3 := ⟨angularVelocity.x / (angle / dt), angularVelocity.y / (angle / dt),
      angularVelocity.z / (angle / dt)⟩
    let deltaRotation := Quat.fromAxisAngle axis angle
    Quat.normalize (Quat.mul orientation deltaRotation)

/-- `FlightModel.calculateAcceleration` (part_007 lines 193–255), in the ENU
frame.  The source receives `newState` and reads its orientation and
throttle; those two fields are the explicit arguments here. -/
noncomputable def calculateAcceleration (P : Params) (orientation : Quat) (throttle : ℝ)
    (velocityENU : Vec3) : Vec3 :=
  let speed := velocityENU.norm
  let dynamicPressure := 0.5 * P.AIR_DENSITY * speed * speed
  let bodyToENU := Mat3.fromQuaternion orientation
  let forwardENU := Vec3.normalize (bodyToENU.mulVec ⟨0, 1, 0⟩)
  let upENU := Vec3.normalize (bodyToENU.mulVec ⟨0, 0, 1⟩)
  let thrust := P.IDLE_THRUST + (P.MAX_THRUST - P.IDLE_THRUST) * throttle
  let a1 := (thrust / P.MASS) • forwardENU
  let liftMagnitude := dynamicPressure * P.WING_AREA * P.LIFT_COEFFICIENT
  let a2 := a1 + (liftMagnitude / P.MASS) • upENU
  let a3 :=
    if speed > 0.1 then
      let dragMagnitude := dynamicPressure * P.WING_AREA * P.DRAG_COEFFICIENT
      a2 + (-dragMagnitude / P.MASS) • Vec3.normalize velocityENU
    else a2
  ⟨a3.x, a3.y, a3.z - P.GRAVITY⟩

/-- `FlightModel.updatePosition` (part_007 lines 260–270). -/
def updatePosition (position velocity : Vec3) (dt : ℝ) : Vec3 := position + dt • velocity

/-- `FlightModel.update` (part_007 lines 20–84): throttle, ECEF→ENU velocity,
angular velocity, orientation, ENU acceleration, velocity integration with
max-speed clamp, ENU→ECEF conversion, position integration. -/
noncomputable def update (P : Params) (state : AircraftState) (input : InputState)
    (dt : ℝ) : AircraftState :=
  let enuToEcefM := enuToEcef state.position
  let ecefToEnu := Mat3.inverse enuToEcefM
  let throttle1 := updateThrottle P state.throttle input dt
  let velocityENU := ecefToEnu.mulVec state.velocity
  let speed1 := velocityENU.norm
  let angularVelocity1 := updateAngularVelocity P state.angularVelocity input speed1 dt
  let orientation1 := updateOrientation state.orientation angularVelocity1 dt
  let accelerationENU := calculateAcceleration P orientation1 throttle1 velocityENU
  let newVelocityENU := velocityENU + dt • accelerationENU
  let newVelocityENU2 :=
    if newVelocityENU.norm > P.MAX_SPEED then P.MAX_SPEED • Vec3.normalize newVelocityENU
    else newVelocityENU
  let velocity1 := enuToEcefM.mulVec newVelocityENU2
  let position1 := updatePosition state.position velocity1 dt
  { position := position1, orientation := orientation1, velocity := velocity1,
    angularVelocity := angularVelocity1, throttle := throttle1, speed := velocity1.norm }

/-- `FlightModel.getForwardDirection(orientation)` of the stale ECEF revision
(`src/src/game/physics/FlightModel.ts` lines 271–277), which is the overload
`useWeapons.ts` calls: rotate body −Z by the orientation and normalize. -/
noncomputable def getForwardDirection (orientation : Quat) : Vec3 :=
  Vec3.normalize ((Mat3.fromQuaternion orientation).mulVec ⟨0, 0, -1⟩)

end FlightModel

/-!
## Weapon system (`src/src/composables/useWeapons.ts`)

The reactive `missiles` map and the module-level `lastMissileTime` /
`lastGunTime` variables of one `useWeapons()` instance form `WeaponsState`.
`generateId()` draws a random id; the id is an explicit argument here.
-/

/-- `Missile` from `src/types/game.ts`. -/
structure Missile where
  id : String
  ownerId : String
  position : Vec3
  velocity : Vec3
  targetId : Option String
  createdAt : ℝ

/-- The mutable state of one `useWeapons()` instance (bullets omitted: no
claim touches them). -/
structure WeaponsState where
  missiles : List Missile
  lastMissileTime : ℝ
  lastGunTime : ℝ

/-- A hit record produced by `checkMissileCollisions`. -/
structure MissileHit where
  missileId : String
  playerId : String
  ownerId : String

namespace Weapons

/-- `WEAPONS.MISSILE.SPEED` (m/s). -/
def MISSILE_SPEED : ℝ := 400

/-- `WEAPONS.MISSILE.TURN_RATE` (rad/s). -/
def MISSILE_TURN_RATE : ℝ := 3.0

/-- `WEAPONS.MISSILE.LIFETIME` (ms). -/
def MISSILE_LIFETIME : ℝ := 10000

/-- `WEAPONS.MISSILE.COOLDOWN` (ms). -/
def MISSILE_COOLDOWN : ℝ := 2000

/-- `WEAPONS.MISSILE.PROXIMITY_FUSE` (m). -/
def MISSILE_PROXIMITY_FUSE : ℝ := 15

/-- `COLLISION.AIRCRAFT` (m). -/
def COLLISION_AIRCRAFT : ℝ := 10

/-- `fireMissile` (useWeapons.ts lines 17–51).  `now` is `Date.now()`,
`newId` the value `generateId()` would draw.  Note the cooldown test reads
the single module-level `lastMissileTime`, whatever `ownerId` is. -/
noncomputable def fireMissile (now : ℝ) (newId : String) (ownerId : String)
    (state : AircraftState) (targetId : Option String) (ws : WeaponsState) :
    Option Missile × WeaponsState :=
  if now - ws.lastMissileTime < MISSILE_COOLDOWN then (none, ws)
  else
    let forward := FlightModel.getForwardDirection state.orientation
    let velocity := MISSILE_SPEED • forward
    let position := state.position + (15 : ℝ) • forward
    let missile : Missile := ⟨newId, ownerId, position, velocity, targetId, now⟩
    (some missile, { ws with
      missiles := ws.missiles ++ [missile]
      lastMissileTime := now })

/-- The per-missile body of the `updateMissiles` loop (useWeapons.ts lines
105–156): expiry, homing blend for a locked live target, position
integration.  `none` models deletion from the registry. -/
noncomputable def stepMissile (now dt : ℝ) (players : List (String × Player))
    (m : Missile) : Option Missile :=
  if now - m.createdAt > MISSILE_LIFETIME then none
  else
    let m1 :=
      match m.targetId with
      | none => m
      | some tid =>
        match mapGet players tid with
        | none => m
        | some target =>
          if target.isAlive then
            let toTarget := Vec3.normalize (target.position - m.position)
            let currentDir := Vec3.normalize m.velocity
            let turnAmount := MISSILE_TURN_RATE * dt
            let newDir := Vec3.normalize (Vec3.lerp currentDir toTarget (min turnAmount 1))
            { m with velocity := MISSILE_SPEED • newDir }
          else m
    some { m1 with position := m1.position + dt • m1.velocity }

/-- `updateMissiles` (useWeapons.ts lines 102–157). -/
noncomputable def updateMissiles (now dt : ℝ) (players : List (String × Player))
    (ws : WeaponsState) : WeaponsState :=
  { ws with missiles := ws.missiles.filterMap (stepMissile now dt players) }

open Classical in
/-- The inner player loop of `checkMissileCollisions` (useWeapons.ts lines
194–209): the first live, non-owner player within the combined radius, in map
iteration order. -/
noncomputable def firstMissileTarget (players : List (String × Player)) (m : Missile) :
    Option String :=
  (players.find? fun pr =>
    decide (pr.1 ≠ m.ownerId ∧ pr.2.isAlive = true ∧
      Vec3.dist m.position pr.2.position < COLLISION_AIRCRAFT + MISSILE_PROXIMITY_FUSE)).map
    Prod.fst

/-- `checkMissileCollisions` (useWeapons.ts lines 186–213) on the missile
registry list: hits in iteration order, and the registry remaining after the
in-loop deletions. -/
noncomputable def checkMissileCollisions (players : List (String × Player)) :
    List Missile → List MissileHit × List Missile
  | [] => ([], [])
  | m :: rest =>
    match firstMissileTarget players m with
    | some pid =>
      let r := checkMissileCollisions players rest
      (⟨m.id, pid, m.ownerId⟩ :: r.1, r.2)
    | none =>
      let r := checkMissileCollisions players rest
      (r.1, m :: r.2)

end Weapons

/-!
## Arena constraint enforcement

`enforceArenaBounds` and `enforceAltitudeLimits` from the game-arena
component (`src/unnamed/part_001`, lines 294–369).  The arena centre and
radius (`ARENA.CENTER`, `ARENA.RADIUS`) are parameters, exactly as the spec
lists them among the injectable configuration.
-/

namespace Arena

/-- `enforceArenaBounds` (part_001 lines 294–337).  The soft branch rewrites
the velocity; the hard branch rewrites the position, reading the (unmodified)
position.  Returns (new position, new velocity). -/
noncomputable def enforceArenaBounds (center : Vec3) (radius : ℝ) (pos vel : Vec3) :
    Vec3 × Vec3 :=
  let distance := Vec3.dist pos center
  let vel1 :=
    if distance > radius * 0.9 then
      let toCenter := Vec3.normalize (center - pos)
      let currentDir := Vec3.normalize vel
      let blendedDir := Vec3.normalize (Vec3.lerp currentDir toCenter 0.02)
      let speed := vel.norm
      speed • blendedDir
    else vel
  let pos1 :=
    if distance > radius then
      center + (radius * 0.95) • Vec3.normalize (center - pos)
    else pos
  (pos1, vel1)

/-- WGS84 equatorial radius in metres.  The geodesy of `getCartographic` /
`Cesium.Cartesian3.fromDegrees` is modelled on a sphere of this radius: the
altitude of `p` is `‖p‖ − R`, and rebuilding a point at the same longitude
and latitude with a new altitude rescales `p` to length `R + altitude`. -/
def EARTH_RADIUS : ℝ := 6378137

/-- Altitude of `p` in the sphere model
(`useCesium.getCartographic(p).altitude`). -/
noncomputable def getAltitude (p : Vec3) : ℝ := p.norm - EARTH_RADIUS

/-- `Cesium.Cartesian3.fromDegrees(lon(p), lat(p), alt)` in the sphere model:
the point on the ray of `p` at altitude `alt`. -/
noncomputable def atAltitude (p : Vec3) (alt : ℝ) : Vec3 :=
  ((EARTH_RADIUS + alt) / p.norm) • p

/-- `PHYSICS.MIN_ALTITUDE` (m). -/
def MIN_ALTITUDE : ℝ := 100

/-- `PHYSICS.MAX_ALTITUDE` (m). -/
def MAX_ALTITUDE : ℝ := 15000

/-- `enforceAltitudeLimits` (part_001 lines 339–368).  The cartographic
coordinates are computed once from the incoming position and both branches
test that value; the floor branch zeroes the global (ECEF) z component of the
velocity when it is negative. -/
noncomputable def enforceAltitudeLimits (pos vel : Vec3) : Vec3 × Vec3 :=
  let alt := getAltitude pos
  let s1 : Vec3 × Vec3 :=
    if alt < MIN_ALTITUDE then
      (atAltitude pos (MIN_ALTITUDE + 50),
       if vel.z < 0 then ⟨vel.x, vel.y, 0⟩ else vel)
    else (pos, vel)
  if alt > MAX_ALTITUDE then (atAltitude pos (MAX_ALTITUDE - 50), s1.2) else s1

end Arena

/-!
## Dead-reckoning reconciler (`useDeadReckoning`, `src/unnamed/part_005`)
-/

/-- `RemotePlayerDR` (part_005 lines 161–175). -/
structure RemotePlayerDR where
  confirmedPosition : Vec3
  confirmedOrientation : Quat
  confirmedVelocity : Vec3
  confirmedTimestamp : ℝ
  renderPosition : Vec3
  renderOrientation : Quat
  correctionOffset : Vec3
  correctionAlpha : ℝ

namespace DeadReckoning

/-- `CORRECTION_DURATION` (ms). -/
def CORRECTION_DURATION : ℝ := 200

/-- `MAX_EXTRAPOLATION` (ms). -/
def MAX_EXTRAPOLATION : ℝ := 500

/-- `SNAP_THRESHOLD` (m). -/
def SNAP_THRESHOLD : ℝ := 50

/-- `extrapolatePosition` (part_005 lines 381–391). -/
def extrapolatePosition (position velocity : Vec3) (dt : ℝ) : Vec3 :=
  position + dt • velocity

/-- `initPlayer` (part_005 lines 200–218).  `now` is the `Date.now()` the
source stamps the confirmed state with (the sample timestamp is *not* used
here). -/
def initPlayer (now : ℝ) (playerId : String) (position : Vec3) (orientation : Quat)
    (velocity : Vec3) (players : List (String × RemotePlayerDR)) :
    List (String × RemotePlayerDR) :=
  mapSet players playerId
    ⟨position, orientation, velocity, now, position, orientation, ⟨0, 0, 0⟩, 0⟩

/-- `receiveUpdate` (part_005 lines 224–276).  `now` is the wall-clock time
of the call (used only on the implicit-join path through `initPlayer`). -/
noncomputable def receiveUpdate (now : ℝ) (playerId : String) (position : Vec3)
    (orientation : Quat) (velocity : Vec3) (timestamp : ℝ)
    (players : List (String × RemotePlayerDR)) : List (String × RemotePlayerDR) :=
  match mapGet players playerId with
  | none => initPlayer now playerId position orientation velocity players
  | some player =>
    let timeSinceConfirmed := (timestamp - player.confirmedTimestamp) / 1000
    let predictedPosition :=
      extrapolatePosition player.confirmedPosition player.confirmedVelocity timeSinceConfirmed
    let errorMagnitude := (position - predictedPosition).norm
    let player1 :=
      if errorMagnitude > SNAP_THRESHOLD then
        { player with
          renderPosition := position
          renderOrientation := orientation
          correctionOffset := ⟨0, 0, 0⟩
          correctionAlpha := 0 }
      else
        { player with
          correctionOffset := player.renderPosition - position
          correctionAlpha := 1 }
    mapSet players playerId
      { player1 with
        confirmedPosition := position
        confirmedOrientation := orientation
        confirmedVelocity := velocity
        confirmedTimestamp := timestamp }

/-- The per-player body of the `update` loop (part_005 lines 285–317). -/
noncomputable def stepDR (now dt : ℝ) (player : RemotePlayerDR) : RemotePlayerDR :=
  let timeSinceConfirmed := (now - player.confirmedTimestamp) / 1000
  let clampedTime := min timeSinceConfirmed (MAX_EXTRAPOLATION / 1000)
  let extrapolated :=
    extrapolatePosition player.confirmedPosition player.confirmedVelocity clampedTime
  let player1 :=
    if player.correctionAlpha > 0.001 then
      let correctionDecay := dt / (CORRECTION_DURATION / 1000)
      let alpha1 := max 0 (player.correctionAlpha - correctionDecay)
      { player with
        correctionAlpha := alpha1
        renderPosition := extrapolated + alpha1 • player.correctionOffset }
    else
      { player with renderPosition := extrapolated }
  { player1 with renderOrientation := player1.confirmedOrientation }

/-- `update` (part_005 lines 282–318): every tracked entity is stepped.
`now` is the `Date.now()` read at the top of the call. -/
noncomputable def update (now dt : ℝ) (players : List (String × RemotePlayerDR)) :
    List (String × RemotePlayerDR) :=
  players.map fun pr => (pr.1, stepDR now dt pr.2)

/-- A sequence of `update` calls, each with its own wall-clock time and
frame delta. -/
noncomputable def applyUpdates (calls : List (ℝ × ℝ))
    (players : List (String × RemotePlayerDR)) : List (String × RemotePlayerDR) :=
  calls.foldl (fun acc c => update c.1 c.2 acc) players

/-- `getRenderState` (part_005 lines 323–334). -/
def getRenderState (playerId : String) (players : List (String × RemotePlayerDR)) :
    Option (Vec3 × Quat) :=
  (mapGet players playerId).map fun p => (p.renderPosition, p.renderOrientation)

end DeadReckoning

/-- Angle between two vectors, for stating the homing-guidance claim:
`arccos` of the normalized dot product, in `[0, π]`. -/
noncomputable def angleBetween (u v : Vec3) : ℝ :=
  Real.arccos (Vec3.dot u v / (u.norm * v.norm))

/-!
## Heap model of `FlightModel.update` for the frame-effect claim

JavaScript objects live on a heap and are passed by reference, so "update
never mutates its input" is a statement about heap cells.  `Store` holds the
`Cartesian3` cells, `Quaternion` cells and `AircraftState` record cells; the
embedding of `update` below performs exactly the allocations (`new
Cesium.Cartesian3()`, object literals, `{...state}`) and field writes
(`newState.field = ...`) of part_007 lines 20–84, calling the pure helper
functions above for the arithmetic.  Every Cesium call inside the helpers
writes only into objects freshly allocated inside that helper, so the helpers
are referentially transparent and enter the heap only through the allocation
of their results.
-/

namespace HeapModel

/-- An `AircraftState` record object: references into the vector and
quaternion heaps plus the two number fields. -/
structure StateObj where
  position : ℕ
  orientation : ℕ
  velocity : ℕ
  angularVelocity : ℕ
  throttle : ℝ
  speed : ℝ

/-- The object heap: bump-allocated vector, quaternion and record cells. -/
structure Store where
  nextV : ℕ
  vdata : ℕ → Vec3
  nextQ : ℕ
  qdata : ℕ → Quat
  nextS : ℕ
  sdata : ℕ → StateObj

/-- Allocate a fresh `Cartesian3` cell. -/
def allocV (σ : Store) (v : Vec3) : Store × ℕ :=
  ({ σ with
     nextV := σ.nextV + 1
     vdata := fun j => if j = σ.nextV then v else σ.vdata j }, σ.nextV)

/-- Allocate a fresh `Quaternion` cell. -/
def allocQ (σ : Store) (q : Quat) : Store × ℕ :=
  ({ σ with
     nextQ := σ.nextQ + 1
     qdata := fun j => if j = σ.nextQ then q else σ.qdata j }, σ.nextQ)

/-- Allocate a fresh `AircraftState` record cell. -/
def allocS (σ : Store) (s : StateObj) : Store × ℕ :=
  ({ σ with
     nextS := σ.nextS + 1
     sdata := fun j => if j = σ.nextS then s else σ.sdata j }, σ.nextS)

/-- Write a field of an `AircraftState` record cell. -/
def writeS (σ : Store) (i : ℕ) (f : StateObj → StateObj) : Store :=
  { σ with sdata := fun j => if j = i then f (σ.sdata j) else σ.sdata j }

/-- Heap-level `FlightModel.update` (part_007 lines 20–84): `{...state}` then
the eight numbered steps, each `newState.field = ...` assignment as a record
write, each freshly constructed object as an allocation. -/
noncomputable def update (P : Params) (σ0 : Store) (sref : ℕ) (input : InputState)
    (dt : ℝ) : Store × ℕ :=
  let s := σ0.sdata sref
  let a1 := allocS σ0 s
  let σ1 := a1.1
  let nref := a1.2
  let enuToEcefM := enuToEcef (σ1.vdata s.position)
  let ecefToEnu := Mat3.inverse enuToEcefM
  let σ2 := writeS σ1 nref fun r =>
    { r with throttle := FlightModel.updateThrottle P s.throttle input dt }
  let velocityENU := ecefToEnu.mulVec (σ2.vdata s.velocity)
  let σ3 := writeS σ2 nref fun r => { r with speed := velocityENU.norm }
  let angularVelocity1 := FlightModel.updateAngularVelocity P (σ3.vdata s.angularVelocity)
    input (σ3.sdata nref).speed dt
  let a2 := allocV σ3 angularVelocity1
  let σ4 := a2.1
  let avref := a2.2
  let σ5 := writeS σ4 nref fun r => { r with angularVelocity := avref }
  let orientation1 := FlightModel.updateOrientation (σ5.qdata s.orientation)
    (σ5.vdata (σ5.sdata nref).angularVelocity) dt
  let a3 := allocQ σ5 orientation1
  let σ6 := a3.1
  let qref := a3.2
  let σ7 := writeS σ6 nref fun r => { r with orientation := qref }
  let accelerationENU := FlightModel.calculateAcceleration P
    (σ7.qdata (σ7.sdata nref).orientation) (σ7.sdata nref).throttle velocityENU
  let newVelocityENU := velocityENU + dt • accelerationENU
  let newVelocityENU2 :=
    if newVelocityENU.norm > P.MAX_SPEED then P.MAX_SPEED • Vec3.normalize newVelocityENU
    else newVelocityENU
  let vECEF := enuToEcefM.mulVec newVelocityENU2
  let a4 := allocV σ7 vECEF
  let σ8 := a4.1
  let vref := a4.2
  let σ9 := writeS σ8 nref fun r => { r with velocity := vref }
  let σ10 := writeS σ9 nref fun r => { r with speed := (σ9.vdata vref).norm }
  let position1 := FlightModel.updatePosition (σ10.vdata s.position)
    (σ10.vdata (σ10.sdata nref).velocity) dt
  let a5 := allocV σ10 position1
  let σ11 := a5.1
  let pref := a5.2
  let σ12 := writeS σ11 nref fun r => { r with position := pref }
  (σ12, nref)

end HeapModel

/-!
# Theorems

Helper lemmas first, then one theorem per claim (with a witness where the
claim theorem carries hypotheses, and a counterexample where the claim as
frozen fails on the code).
-/

namespace Vec3

@[simp] theorem add_x (a b : Vec3) : (a + b).x = a.x + b.x := rfl
@[simp] theorem add_y (a b : Vec3) : (a + b).y = a.y + b.y := rfl
@[simp] theorem add_z (a b : Vec3) : (a + b).z = a.z + b.z := rfl
@[simp] theorem sub_x (a b : Vec3) : (a - b).x = a.x - b.x := rfl
@[simp] theorem sub_y (a b : Vec3) : (a - b).y = a.y - b.y := rfl
@[simp] theorem sub_z (a b : Vec3) : (a - b).z = a.z - b.z := rfl
@[simp] theorem neg_x (a : Vec3) : (-a).x = -a.x := rfl
@[simp] theorem neg_y (a : Vec3) : (-a).y = -a.y := rfl
@[simp] theorem neg_z (a : Vec3) : (-a).z = -a.z := rfl
@[simp] theorem smul_x (c : ℝ) (a : Vec3) : (c • a).x = c * a.x := rfl
@[simp] theorem smul_y (c : ℝ) (a : Vec3) : (c • a).y = c * a.y := rfl
@[simp] theorem smul_z (c : ℝ) (a : Vec3) : (c • a).z = c * a.z := rfl
@[simp] theorem zero_x : (0 : Vec3).x = 0 := rfl
@[simp] theorem zero_y : (0 : Vec3).y = 0 := rfl
@[simp] theorem zero_z : (0 : Vec3).z = 0 := rfl

theorem normSq_nonneg (a : Vec3) : 0 ≤ a.normSq := by
  have hx := mul_self_nonneg a.x
  have hy := mul_self_nonneg a.y
  have hz := mul_self_nonneg a.z
  unfold normSq; linarith

theorem norm_nonneg (a : Vec3) : 0 ≤ a.norm := Real.sqrt_nonneg _

theorem norm_sq (a : Vec3) : a.norm * a.norm = a.normSq :=
  Real.mul_self_sqrt a.normSq_nonneg

theorem normSq_eq_zero_iff (a : Vec3) : a.normSq = 0 ↔ a = 0 := by
  constructor
  · intro h
    have hx := mul_self_nonneg a.x
    have hy := mul_self_nonneg a.y
    have hz := mul_self_nonneg a.z
    unfold normSq at h
    ext <;> simp <;> nlinarith
  · intro h; subst h; simp [normSq]

theorem norm_pos_of_ne_zero {a : Vec3} (h : a ≠ 0) : 0 < a.norm := by
  apply Real.sqrt_pos.mpr
  rcases lt_or_eq_of_le a.normSq_nonneg with h' | h'
  · exact h'
  · exact absurd (a.normSq_eq_zero_iff.mp h'.symm) h

/-- Evaluate the magnitude of a concrete vector whose norm is rational. -/
theorem norm_eval (a : Vec3) (c : ℝ) (hc : 0 ≤ c)
    (h : a.x * a.x + a.y * a.y + a.z * a.z = c * c) : a.norm = c := by
  unfold norm normSq
  rw [h]
  exact Real.sqrt_mul_self hc

theorem norm_smul (c : ℝ) (a : Vec3) : (c • a).norm = |c| * a.norm := by
  unfold norm
  have : (c • a).normSq = c ^ 2 * a.normSq := by unfold normSq; simp; ring
  rw [this, Real.sqrt_mul (sq_nonneg c), Real.sqrt_sq_eq_abs]

theorem norm_neg (a : Vec3) : (-a).norm = a.norm := by
  unfold norm
  congr 1
  unfold normSq
  simp only [neg_x, neg_y, neg_z]
  ring

theorem normalize_eq_smul (a : Vec3) : a.normalize = (1 / a.norm) • a := by
  unfold normalize
  ext <;> simp <;> ring

theorem norm_normalize {a : Vec3} (h : a ≠ 0) : a.normalize.norm = 1 := by
  have hpos := norm_pos_of_ne_zero h
  rw [normalize_eq_smul, norm_smul, abs_of_pos (by positivity : (0:ℝ) < 1 / a.norm)]
  field_simp

/-- Cauchy–Schwarz for `Vec3`, squared form (Lagrange identity). -/
theorem dot_sq_le (a b : Vec3) : a.dot b * a.dot b ≤ a.normSq * b.normSq := by
  unfold dot normSq
  nlinarith [sq_nonneg (a.y * b.z - a.z * b.y), sq_nonneg (a.z * b.x - a.x * b.z),
    sq_nonneg (a.x * b.y - a.y * b.x)]

theorem abs_dot_le (a b : Vec3) : |a.dot b| ≤ a.norm * b.norm := by
  have h := dot_sq_le a b
  have ha := a.norm_nonneg
  have hb := b.norm_nonneg
  have h2 : a.norm * b.norm * (a.norm * b.norm) = a.normSq * b.normSq := by
    rw [show a.norm * b.norm * (a.norm * b.norm) = (a.norm * a.norm) * (b.norm * b.norm) by ring,
      a.norm_sq, b.norm_sq]
  rw [abs_le]
  constructor
  · nlinarith [mul_nonneg ha hb]
  · nlinarith [mul_nonneg ha hb]

end Vec3

/-- C1 (amended): when the pre-correction distance from the arena centre
exceeds the radius, the enforced position lies at distance exactly
0.95 × radius from the centre, but on the ray *opposite* the pre-correction
position: the corrected offset from the centre is a negative multiple of the
pre-correction offset (the code adds `0.95·radius · normalize(center − pos)`
to the centre, which continues the centre-ward bearing through the centre to
the far side). -/
theorem c1_relocation_distance_and_opposite_ray (center : Vec3) (radius : ℝ)
    (pos vel : Vec3) (hr : 0 < radius) (hd : Vec3.dist pos center > radius) :
    Vec3.dist (Arena.enforceArenaBounds center radius pos vel).1 center = radius * 0.95 ∧
    ∃ t : ℝ, t < 0 ∧
      (Arena.enforceArenaBounds center radius pos vel).1 - center = t • (pos - center) := by
  have hne : pos - center ≠ 0 := by
    intro h
    have : Vec3.dist pos center = 0 := by
      unfold Vec3.dist
      rw [h]
      simp [Vec3.norm, Vec3.normSq]
    linarith
  have hn : 0 < (pos - center).norm := Vec3.norm_pos_of_ne_zero hne
  have hcp : center - pos = -(pos - center) := by ext <;> simp
  have hnormcp : (center - pos).norm = (pos - center).norm := by
    rw [hcp, Vec3.norm_neg]
  have hfst : (Arena.enforceArenaBounds center radius pos vel).1
      = center + (radius * 0.95) • Vec3.normalize (center - pos) := by
    simp only [Arena.enforceArenaBounds]
    rw [if_pos hd]
  have hoff : (Arena.enforceArenaBounds center radius pos vel).1 - center
      = (-(radius * 0.95) / (pos - center).norm) • (pos - center) := by
    rw [hfst, Vec3.normalize_eq_smul, hnormcp, hcp]
    ext <;> simp <;> ring
  constructor
  · unfold Vec3.dist
    rw [hoff, Vec3.norm_smul, abs_div, abs_neg, abs_of_pos (by positivity : (0:ℝ) < radius * 0.95),
      abs_of_pos hn]
    field_simp
  · exact ⟨-(radius * 0.95) / (pos - center).norm,
      div_neg_of_neg_of_pos (by linarith) hn, hoff⟩

/-- Witness for C1's amended theorem at a concrete input: centre at the
origin, radius 1, aircraft at (2,0,0): the enforced position is at distance
0.95 from the centre and is a negative multiple of the original offset. -/
theorem c1_relocation_witness :
    Vec3.dist (Arena.enforceArenaBounds ⟨0,0,0⟩ 1 ⟨2,0,0⟩ ⟨1,0,0⟩).1 ⟨0,0,0⟩ = 1 * 0.95 ∧
    ∃ t : ℝ, t < 0 ∧
      (Arena.enforceArenaBounds ⟨0,0,0⟩ 1 ⟨2,0,0⟩ ⟨1,0,0⟩).1 - ⟨0,0,0⟩
        = t • ((⟨2,0,0⟩ : Vec3) - ⟨0,0,0⟩) :=
  c1_relocation_distance_and_opposite_ray ⟨0,0,0⟩ 1 ⟨2,0,0⟩ ⟨1,0,0⟩ (by norm_num)
    (by
      have : Vec3.dist ⟨2,0,0⟩ ⟨0,0,0⟩ = 2 := by
        unfold Vec3.dist
        exact Vec3.norm_eval _ 2 (by norm_num) (by norm_num)
      rw [this]; norm_num)

/-- C1 counterexample: the claim places the relocated aircraft on the same
side of the centre as its pre-correction position; at centre (0,0,0),
radius 1, position (2,0,0) the code relocates to (−0.95, 0, 0), whose offset
from the centre points *away* from the pre-correction offset (negative dot
product), refuting the same-side clause. -/
theorem c1_counterexample :
    (Arena.enforceArenaBounds ⟨0,0,0⟩ 1 ⟨2,0,0⟩ ⟨1,0,0⟩).1 = ⟨-0.95, 0, 0⟩ ∧
    Vec3.dot ((Arena.enforceArenaBounds ⟨0,0,0⟩ 1 ⟨2,0,0⟩ ⟨1,0,0⟩).1 - ⟨0,0,0⟩)
      ((⟨2,0,0⟩ : Vec3) - ⟨0,0,0⟩) < 0 := by
  have hdist : Vec3.dist ⟨2,0,0⟩ ⟨0,0,0⟩ = 2 := by
    unfold Vec3.dist
    exact Vec3.norm_eval _ 2 (by norm_num) (by norm_num)
  have hnorm : Vec3.norm ((⟨0,0,0⟩ : Vec3) - ⟨2,0,0⟩) = 2 :=
    Vec3.norm_eval _ 2 (by norm_num) (by norm_num)
  have hfst : (Arena.enforceArenaBounds ⟨0,0,0⟩ 1 ⟨2,0,0⟩ ⟨1,0,0⟩).1 = ⟨-0.95, 0, 0⟩ := by
    simp only [Arena.enforceArenaBounds]
    rw [hdist, if_pos (by norm_num : (2:ℝ) > 1)]
    unfold Vec3.normalize
    rw [hnorm]
    ext <;> simp
  refine ⟨hfst, ?_⟩
  rw [hfst]
  unfold Vec3.dot
  simp
  norm_num

theorem arena_norm_atAltitude {p : Vec3} (hp : p ≠ 0) {a : ℝ}
    (ha : 0 ≤ Arena.EARTH_RADIUS + a) :
    (Arena.atAltitude p a).norm = Arena.EARTH_RADIUS + a := by
  have hn := Vec3.norm_pos_of_ne_zero hp
  unfold Arena.atAltitude
  rw [Vec3.norm_smul, abs_of_nonneg (div_nonneg ha (le_of_lt hn))]
  field_simp

theorem arena_altitude_atAltitude {p : Vec3} (hp : p ≠ 0) {a : ℝ}
    (ha : 0 ≤ Arena.EARTH_RADIUS + a) :
    Arena.getAltitude (Arena.atAltitude p a) = a := by
  unfold Arena.getAltitude
  rw [arena_norm_atAltitude hp ha]
  ring

/-- C7 (amended): if the altitude is below the configured minimum the
enforcement repositions the aircraft to altitude floor+50 on the same ray
from the planet centre (same longitude and latitude) and clamps the *global
ECEF z component* of the velocity to be nonnegative — the component along the
local down direction at the aircraft's position is not consulted; if the
altitude is above the configured maximum it repositions to ceiling−50 and
leaves the velocity entirely unchanged. -/
theorem c7_altitude_enforcement (pos vel : Vec3) (hne : pos ≠ 0) :
    (Arena.getAltitude pos < Arena.MIN_ALTITUDE →
      Arena.getAltitude (Arena.enforceAltitudeLimits pos vel).1 = Arena.MIN_ALTITUDE + 50 ∧
      (∃ c : ℝ, 0 < c ∧ (Arena.enforceAltitudeLimits pos vel).1 = c • pos) ∧
      (Arena.enforceAltitudeLimits pos vel).2 = ⟨vel.x, vel.y, max vel.z 0⟩) ∧
    (Arena.getAltitude pos > Arena.MAX_ALTITUDE →
      Arena.getAltitude (Arena.enforceAltitudeLimits pos vel).1 = Arena.MAX_ALTITUDE - 50 ∧
      (∃ c : ℝ, 0 < c ∧ (Arena.enforceAltitudeLimits pos vel).1 = c • pos) ∧
      (Arena.enforceAltitudeLimits pos vel).2 = vel) := by
  have hn := Vec3.norm_pos_of_ne_zero hne
  constructor
  · intro hlow
    have hnothigh : ¬ (Arena.getAltitude pos > Arena.MAX_ALTITUDE) := by
      simp only [Arena.MIN_ALTITUDE, Arena.MAX_ALTITUDE] at *
      linarith
    have heq : Arena.enforceAltitudeLimits pos vel
        = (Arena.atAltitude pos (Arena.MIN_ALTITUDE + 50),
           if vel.z < 0 then ⟨vel.x, vel.y, 0⟩ else vel) := by
      simp only [Arena.enforceAltitudeLimits]
      rw [if_pos hlow, if_neg hnothigh]
    rw [heq]
    refine ⟨?_, ⟨(Arena.EARTH_RADIUS + (Arena.MIN_ALTITUDE + 50)) / pos.norm, ?_, rfl⟩, ?_⟩
    · exact arena_altitude_atAltitude hne
        (by simp only [Arena.EARTH_RADIUS, Arena.MIN_ALTITUDE]; norm_num)
    · apply div_pos _ hn
      simp only [Arena.EARTH_RADIUS, Arena.MIN_ALTITUDE]
      norm_num
    · by_cases hz : vel.z < 0
      · rw [if_pos hz]
        ext <;> simp
        exact le_of_lt hz
      · rw [if_neg hz]
        push_neg at hz
        ext <;> simp
        exact hz
  · intro hhigh
    have hnotlow : ¬ (Arena.getAltitude pos < Arena.MIN_ALTITUDE) := by
      simp only [Arena.MIN_ALTITUDE, Arena.MAX_ALTITUDE] at *
      linarith
    have heq : Arena.enforceAltitudeLimits pos vel
        = (Arena.atAltitude pos (Arena.MAX_ALTITUDE - 50), vel) := by
      simp only [Arena.enforceAltitudeLimits]
      rw [if_neg hnotlow, if_pos hhigh]
    rw [heq]
    refine ⟨?_, ⟨(Arena.EARTH_RADIUS + (Arena.MAX_ALTITUDE - 50)) / pos.norm, ?_, rfl⟩, rfl⟩
    · exact arena_altitude_atAltitude hne
        (by simp only [Arena.EARTH_RADIUS, Arena.MAX_ALTITUDE]; norm_num)
    · apply div_pos _ hn
      simp only [Arena.EARTH_RADIUS, Arena.MAX_ALTITUDE]
      norm_num

/-- Witness for C7's amended theorem: at (R+50, 0, 0) (altitude 50, below the
floor of 100) with velocity (−100, 0, 5). -/
theorem c7_altitude_witness :
    (Arena.getAltitude ⟨Arena.EARTH_RADIUS + 50, 0, 0⟩ < Arena.MIN_ALTITUDE →
      Arena.getAltitude
        (Arena.enforceAltitudeLimits ⟨Arena.EARTH_RADIUS + 50, 0, 0⟩ ⟨-100, 0, 5⟩).1
        = Arena.MIN_ALTITUDE + 50 ∧
      (∃ c : ℝ, 0 < c ∧
        (Arena.enforceAltitudeLimits ⟨Arena.EARTH_RADIUS + 50, 0, 0⟩ ⟨-100, 0, 5⟩).1
          = c • (⟨Arena.EARTH_RADIUS + 50, 0, 0⟩ : Vec3)) ∧
      (Arena.enforceAltitudeLimits ⟨Arena.EARTH_RADIUS + 50, 0, 0⟩ ⟨-100, 0, 5⟩).2
        = ⟨(-100 : ℝ), 0, max 5 0⟩) ∧
    (Arena.getAltitude ⟨Arena.EARTH_RADIUS + 50, 0, 0⟩ > Arena.MAX_ALTITUDE →
      Arena.getAltitude
        (Arena.enforceAltitudeLimits ⟨Arena.EARTH_RADIUS + 50, 0, 0⟩ ⟨-100, 0, 5⟩).1
        = Arena.MAX_ALTITUDE - 50 ∧
      (∃ c : ℝ, 0 < c ∧
        (Arena.enforceAltitudeLimits ⟨Arena.EARTH_RADIUS + 50, 0, 0⟩ ⟨-100, 0, 5⟩).1
          = c • (⟨Arena.EARTH_RADIUS + 50, 0, 0⟩ : Vec3)) ∧
      (Arena.enforceAltitudeLimits ⟨Arena.EARTH_RADIUS + 50, 0, 0⟩ ⟨-100, 0, 5⟩).2
        = ⟨-100, 0, 5⟩) :=
  c7_altitude_enforcement ⟨Arena.EARTH_RADIUS + 50, 0, 0⟩ ⟨-100, 0, 5⟩
    (by
      intro h
      have hx : Arena.EARTH_RADIUS + 50 = (0 : ℝ) := congrArg Vec3.x h
      simp only [Arena.EARTH_RADIUS] at hx
      norm_num at hx)

/-- C7 counterexample: at position (R+50, 0, 0) — altitude 50, below the
floor — with ECEF velocity (−100, 0, 5), which descends at 100 m/s along the
local down direction (−1, 0, 0), the code leaves the velocity completely
unchanged (its global z component 5 is nonnegative): the velocity component
along local down remains 100 instead of being zeroed, refuting the claim's
"zeroes any downward component of its velocity (the velocity component along
the local down direction)". -/
theorem c7_counterexample :
    Arena.getAltitude ⟨Arena.EARTH_RADIUS + 50, 0, 0⟩ < Arena.MIN_ALTITUDE ∧
    (Arena.enforceAltitudeLimits ⟨Arena.EARTH_RADIUS + 50, 0, 0⟩ ⟨-100, 0, 5⟩).2
      = ⟨-100, 0, 5⟩ ∧
    Vec3.dot ⟨-100, 0, 5⟩ (-(localUp ⟨Arena.EARTH_RADIUS + 50, 0, 0⟩)) = 100 := by
  have hR : (0:ℝ) < Arena.EARTH_RADIUS + 50 := by
    simp only [Arena.EARTH_RADIUS]; norm_num
  have hnorm : Vec3.norm ⟨Arena.EARTH_RADIUS + 50, 0, 0⟩ = Arena.EARTH_RADIUS + 50 :=
    Vec3.norm_eval _ _ (le_of_lt hR) (by ring)
  have halt : Arena.getAltitude ⟨Arena.EARTH_RADIUS + 50, 0, 0⟩ = 50 := by
    unfold Arena.getAltitude
    rw [hnorm]; ring
  have hlow : Arena.getAltitude ⟨Arena.EARTH_RADIUS + 50, 0, 0⟩ < Arena.MIN_ALTITUDE := by
    rw [halt]; simp only [Arena.MIN_ALTITUDE]; norm_num
  refine ⟨hlow, ?_, ?_⟩
  · simp only [Arena.enforceAltitudeLimits]
    rw [if_pos hlow, if_neg (by rw [halt]; simp only [Arena.MAX_ALTITUDE]; norm_num)]
    rw [if_neg (by norm_num : ¬ ((⟨-100, 0, 5⟩ : Vec3).z < 0))]
  · unfold localUp Vec3.normalize
    rw [hnorm]
    unfold Vec3.dot
    simp only [Vec3.neg_x, Vec3.neg_y, Vec3.neg_z]
    rw [div_self (ne_of_gt hR)]
    norm_num

theorem fireMissile_none_iff (n : ℝ) (i o : String) (s : AircraftState)
    (t : Option String) (w : WeaponsState) :
    (Weapons.fireMissile n i o s t w).1 = none ↔
      n - w.lastMissileTime < Weapons.MISSILE_COOLDOWN := by
  unfold Weapons.fireMissile
  by_cases h : n - w.lastMissileTime < Weapons.MISSILE_COOLDOWN
  · rw [if_pos h]; simp [h]
  · rw [if_neg h]; simp [h]

theorem fireMissile_isSome (n : ℝ) (i o : String) (s : AircraftState)
    (t : Option String) (w : WeaponsState)
    (h : ¬ n - w.lastMissileTime < Weapons.MISSILE_COOLDOWN) :
    (Weapons.fireMissile n i o s t w).1.isSome = true := by
  unfold Weapons.fireMissile
  rw [if_neg h]
  rfl

theorem fireMissile_lastTime (n : ℝ) (i o : String) (s : AircraftState)
    (t : Option String) (w : WeaponsState)
    (h : ¬ n - w.lastMissileTime < Weapons.MISSILE_COOLDOWN) :
    (Weapons.fireMissile n i o s t w).2.lastMissileTime = n := by
  unfold Weapons.fireMissile
  rw [if_neg h]

/-- C3 (amended): `fireMissile` returns `none` exactly when the current time
is within the missile cooldown window measured from the last successful
missile fire through this weapons instance *by any owner* (the module-level
`lastMissileTime` is shared, not per-owner); consequently a successful fire
by one owner does refuse a fire request by a different owner inside that
window. -/
theorem c3_cooldown_shared (now now2 : ℝ) (id1 id2 o1 o2 : String)
    (st st2 : AircraftState) (tgt tgt2 : Option String) (ws : WeaponsState)
    (h1 : ¬ now - ws.lastMissileTime < Weapons.MISSILE_COOLDOWN)
    (h2 : now2 - now < Weapons.MISSILE_COOLDOWN) :
    (∀ (n : ℝ) (i o : String) (s : AircraftState) (t : Option String) (w : WeaponsState),
      ((Weapons.fireMissile n i o s t w).1 = none ↔
        n - w.lastMissileTime < Weapons.MISSILE_COOLDOWN)) ∧
    (Weapons.fireMissile now id1 o1 st tgt ws).1.isSome = true ∧
    (Weapons.fireMissile now2 id2 o2 st2 tgt2
      (Weapons.fireMissile now id1 o1 st tgt ws).2).1 = none := by
  refine ⟨fun n i o s t w => fireMissile_none_iff n i o s t w,
    fireMissile_isSome now id1 o1 st tgt ws h1, ?_⟩
  rw [fireMissile_none_iff, fireMissile_lastTime now id1 o1 st tgt ws h1]
  exact h2

/-- Witness for C3's amended theorem: owner "a" fires successfully at
t = 100000 from a fresh weapons instance, and owner "b"'s request at
t = 101000 (1000 ms later, inside the 2000 ms window) is refused. -/
theorem c3_cooldown_witness :
    (∀ (n : ℝ) (i o : String) (s : AircraftState) (t : Option String) (w : WeaponsState),
      ((Weapons.fireMissile n i o s t w).1 = none ↔
        n - w.lastMissileTime < Weapons.MISSILE_COOLDOWN)) ∧
    (Weapons.fireMissile 100000 "m1" "a"
      ⟨⟨0,0,0⟩, ⟨0,0,0,1⟩, ⟨0,0,0⟩, ⟨0,0,0⟩, 0.5, 0⟩ none ⟨[], 0, 0⟩).1.isSome = true ∧
    (Weapons.fireMissile 101000 "m2" "b"
      ⟨⟨0,0,0⟩, ⟨0,0,0,1⟩, ⟨0,0,0⟩, ⟨0,0,0⟩, 0.5, 0⟩ none
      (Weapons.fireMissile 100000 "m1" "a"
        ⟨⟨0,0,0⟩, ⟨0,0,0,1⟩, ⟨0,0,0⟩, ⟨0,0,0⟩, 0.5, 0⟩ none ⟨[], 0, 0⟩).2).1 = none :=
  c3_cooldown_shared 100000 101000 "m1" "m2" "a" "b"
    ⟨⟨0,0,0⟩, ⟨0,0,0,1⟩, ⟨0,0,0⟩, ⟨0,0,0⟩, 0.5, 0⟩
    ⟨⟨0,0,0⟩, ⟨0,0,0,1⟩, ⟨0,0,0⟩, ⟨0,0,0⟩, 0.5, 0⟩ none none ⟨[], 0, 0⟩
    (by simp only [Weapons.MISSILE_COOLDOWN]; norm_num)
    (by simp only [Weapons.MISSILE_COOLDOWN]; norm_num)

/-- C3 counterexample: owner "b" has never fired a missile (the weapons
instance starts fresh and the only prior successful fire is owner "a"'s at
t = 100000), yet "b"'s request at t = 101000 returns `none`: the refusal is
*not* measured from "b"'s own last missile, refuting the per-owner cooldown
claim. -/
theorem c3_counterexample :
    (Weapons.fireMissile 100000 "m1" "a"
      ⟨⟨0,0,0⟩, ⟨0,0,0,1⟩, ⟨0,0,0⟩, ⟨0,0,0⟩, 0.5, 0⟩ none ⟨[], 0, 0⟩).1.isSome = true ∧
    (Weapons.fireMissile 101000 "m2" "b"
      ⟨⟨0,0,0⟩, ⟨0,0,0,1⟩, ⟨0,0,0⟩, ⟨0,0,0⟩, 0.5, 0⟩ none
      (Weapons.fireMissile 100000 "m1" "a"
        ⟨⟨0,0,0⟩, ⟨0,0,0,1⟩, ⟨0,0,0⟩, ⟨0,0,0⟩, 0.5, 0⟩ none ⟨[], 0, 0⟩).2).1 = none := by
  have h1 : ¬ ((100000 : ℝ) - (⟨[], 0, 0⟩ : WeaponsState).lastMissileTime
      < Weapons.MISSILE_COOLDOWN) := by
    simp only [Weapons.MISSILE_COOLDOWN]; norm_num
  refine ⟨fireMissile_isSome _ _ _ _ _ _ h1, ?_⟩
  rw [fireMissile_none_iff, fireMissile_lastTime _ _ _ _ _ _ h1]
  simp only [Weapons.MISSILE_COOLDOWN]
  norm_num

theorem firstMissileTarget_mem_prop {players : List (String × Player)} {m : Missile}
    {pid : String} (h : Weapons.firstMissileTarget players m = some pid) :
    pid ≠ m.ownerId ∧ ∃ p : Player, (pid, p) ∈ players ∧ p.isAlive = true ∧
      Vec3.dist m.position p.position
        < Weapons.COLLISION_AIRCRAFT + Weapons.MISSILE_PROXIMITY_FUSE := by
  unfold Weapons.firstMissileTarget at h
  cases hf : players.find? (fun pr =>
      decide (pr.1 ≠ m.ownerId ∧ pr.2.isAlive = true ∧
        Vec3.dist m.position pr.2.position
          < Weapons.COLLISION_AIRCRAFT + Weapons.MISSILE_PROXIMITY_FUSE)) with
  | none => rw [hf] at h; simp at h
  | some pr =>
    rw [hf] at h
    simp at h
    have hmem := List.mem_of_find?_eq_some hf
    have hp := List.find?_some hf
    rw [decide_eq_true_eq] at hp
    obtain ⟨hne, halive, hdist⟩ := hp
    subst h
    exact ⟨hne, pr.2, by simpa using hmem, halive, hdist⟩

theorem firstMissileTarget_eq_none {players : List (String × Player)} {m : Missile}
    (h : ∀ pr ∈ players, pr.1 ≠ m.ownerId → pr.2.isAlive = true →
      ¬ Vec3.dist m.position pr.2.position
          < Weapons.COLLISION_AIRCRAFT + Weapons.MISSILE_PROXIMITY_FUSE) :
    Weapons.firstMissileTarget players m = none := by
  unfold Weapons.firstMissileTarget
  have hnone : players.find? (fun pr =>
      decide (pr.1 ≠ m.ownerId ∧ pr.2.isAlive = true ∧
        Vec3.dist m.position pr.2.position
          < Weapons.COLLISION_AIRCRAFT + Weapons.MISSILE_PROXIMITY_FUSE)) = none := by
    rw [List.find?_eq_none]
    intro pr hpr
    simp only [decide_eq_true_eq]
    rintro ⟨hne, halive, hdist⟩
    exact h pr hpr hne halive hdist
  rw [hnone]
  rfl

theorem checkMissileCollisions_cons (players : List (String × Player)) (m : Missile)
    (rest : List Missile) :
    Weapons.checkMissileCollisions players (m :: rest)
      = match Weapons.firstMissileTarget players m with
        | some pid =>
          (⟨m.id, pid, m.ownerId⟩ :: (Weapons.checkMissileCollisions players rest).1,
           (Weapons.checkMissileCollisions players rest).2)
        | none =>
          ((Weapons.checkMissileCollisions players rest).1,
           m :: (Weapons.checkMissileCollisions players rest).2) := rfl

/-- C8: for every missile registry with distinct missile ids,
`checkMissileCollisions` (i) keeps only missiles of the registry,
(ii) derives every hit from a registry missile whose *first* live, non-owner
player within the combined aircraft-plus-fuse radius (in map iteration
order) is the hit's target — in particular no hit ever names the missile's
own owner or a dead player, (iii) produces at most one hit per missile
(the hit list has pairwise-distinct missile ids), (iv) removes a missile
from the registry when it hits, and (v) leaves a missile with no qualifying
target — e.g. one whose only in-range neighbour is its own owner — in the
registry with zero hits. -/
theorem c8_missile_collision_resolution (players : List (String × Player))
    (ms : List Missile) (hnd : (ms.map Missile.id).Nodup) :
    (∀ k ∈ (Weapons.checkMissileCollisions players ms).2, k ∈ ms) ∧
    (∀ h ∈ (Weapons.checkMissileCollisions players ms).1,
      ∃ m, m ∈ ms ∧ h.missileId = m.id ∧ h.ownerId = m.ownerId ∧
        Weapons.firstMissileTarget players m = some h.playerId ∧
        h.playerId ≠ m.ownerId ∧
        ∃ p : Player, (h.playerId, p) ∈ players ∧ p.isAlive = true ∧
          Vec3.dist m.position p.position
            < Weapons.COLLISION_AIRCRAFT + Weapons.MISSILE_PROXIMITY_FUSE) ∧
    ((Weapons.checkMissileCollisions players ms).1.map MissileHit.missileId).Nodup ∧
    (∀ h ∈ (Weapons.checkMissileCollisions players ms).1,
      h.missileId ∉ (Weapons.checkMissileCollisions players ms).2.map Missile.id) ∧
    (∀ m ∈ ms,
      (∀ pr ∈ players, pr.1 ≠ m.ownerId → pr.2.isAlive = true →
        ¬ Vec3.dist m.position pr.2.position
            < Weapons.COLLISION_AIRCRAFT + Weapons.MISSILE_PROXIMITY_FUSE) →
      m ∈ (Weapons.checkMissileCollisions players ms).2 ∧
      ∀ h ∈ (Weapons.checkMissileCollisions players ms).1, h.missileId ≠ m.id) := by
  induction ms with
  | nil =>
    have h0 : Weapons.checkMissileCollisions players [] = ([], []) := rfl
    rw [h0]
    simp
  | cons m rest ih =>
    have hmap : (m :: rest).map Missile.id = m.id :: rest.map Missile.id := rfl
    rw [hmap, List.nodup_cons] at hnd
    obtain ⟨hnotin, hndrest⟩ := hnd
    obtain ⟨ihA, ihB, ihC, ihD, ihE⟩ := ih hndrest
    have hitsSub : ∀ h ∈ (Weapons.checkMissileCollisions players rest).1,
        h.missileId ∈ rest.map Missile.id := by
      intro h hh
      obtain ⟨m', hm', hid, -⟩ := ihB h hh
      rw [hid]
      exact List.mem_map_of_mem Missile.id hm'
    have keptSub : ∀ i ∈ (Weapons.checkMissileCollisions players rest).2.map Missile.id,
        i ∈ rest.map Missile.id := by
      intro i hi
      rw [List.mem_map] at hi
      obtain ⟨k, hk, rfl⟩ := hi
      exact List.mem_map_of_mem Missile.id (ihA k hk)
    rw [checkMissileCollisions_cons]
    cases hft : Weapons.firstMissileTarget players m with
    | some pid =>
      simp only []
      refine ⟨?_, ?_, ?_, ?_, ?_⟩
      · intro k hk
        exact List.mem_cons_of_mem _ (ihA k hk)
      · intro h hh
        rcases List.mem_cons.mp hh with rfl | hh'
        · obtain ⟨hne, p, hpmem, halive, hdist⟩ := firstMissileTarget_mem_prop hft
          exact ⟨m, List.mem_cons_self _ _, rfl, rfl, hft, hne, p, hpmem, halive, hdist⟩
        · obtain ⟨m', hm', rest'⟩ := ihB h hh'
          exact ⟨m', List.mem_cons_of_mem _ hm', rest'⟩
      · simp only [List.map_cons, List.nodup_cons]
        refine ⟨fun hcon => ?_, ihC⟩
        rw [List.mem_map] at hcon
        obtain ⟨h, hh, hid⟩ := hcon
        exact hnotin (by rw [← hid]; exact hitsSub h hh)
      · intro h hh
        rcases List.mem_cons.mp hh with rfl | hh'
        · intro hcon
          exact hnotin (keptSub _ hcon)
        · exact ihD h hh'
      · intro m' hm' hq
        rcases List.mem_cons.mp hm' with rfl | hm''
        · rw [firstMissileTarget_eq_none hq] at hft
          exact absurd hft (by simp)
        · obtain ⟨hkept, hhits⟩ := ihE m' hm'' hq
          refine ⟨hkept, ?_⟩
          intro h hh
          rcases List.mem_cons.mp hh with rfl | hh'
          · intro hcon
            have hcon' : m.id = m'.id := hcon
            exact hnotin (by rw [hcon']; exact List.mem_map_of_mem Missile.id hm'')
          · exact hhits h hh'
    | none =>
      simp only []
      refine ⟨?_, ?_, ihC, ?_, ?_⟩
      · intro k hk
        rcases List.mem_cons.mp hk with rfl | hk'
        · exact List.mem_cons_self _ _
        · exact List.mem_cons_of_mem _ (ihA k hk')
      · intro h hh
        obtain ⟨m', hm', rest'⟩ := ihB h hh
        exact ⟨m', List.mem_cons_of_mem _ hm', rest'⟩
      · intro h hh
        simp only [List.map_cons, List.mem_cons]
        rintro (hcon | hcon)
        · exact hnotin (by rw [← hcon]; exact hitsSub h hh)
        · exact ihD h hh hcon
      · intro m' hm' hq
        rcases List.mem_cons.mp hm' with rfl | hm''
        · exact ⟨List.mem_cons_self _ _, fun h hh hcon =>
            hnotin (by rw [← hcon]; exact hitsSub h hh)⟩
        · obtain ⟨hkept, hhits⟩ := ihE m' hm'' hq
          exact ⟨List.mem_cons_of_mem _ hkept, hhits⟩

/-- Witness for C8 at a concrete registry: one missile whose only in-range
neighbour is its own owner. -/
theorem c8_missile_collision_witness :
    (∀ k ∈ (Weapons.checkMissileCollisions [("a", ⟨⟨0,0,0⟩, true⟩)]
        [⟨"m1", "a", ⟨1,0,0⟩, ⟨0,0,0⟩, none, 0⟩]).2,
      k ∈ [(⟨"m1", "a", ⟨1,0,0⟩, ⟨0,0,0⟩, none, 0⟩ : Missile)]) ∧
    (∀ h ∈ (Weapons.checkMissileCollisions [("a", ⟨⟨0,0,0⟩, true⟩)]
        [⟨"m1", "a", ⟨1,0,0⟩, ⟨0,0,0⟩, none, 0⟩]).1,
      ∃ m, m ∈ [(⟨"m1", "a", ⟨1,0,0⟩, ⟨0,0,0⟩, none, 0⟩ : Missile)] ∧
        h.missileId = m.id ∧ h.ownerId = m.ownerId ∧
        Weapons.firstMissileTarget [("a", ⟨⟨0,0,0⟩, true⟩)] m = some h.playerId ∧
        h.playerId ≠ m.ownerId ∧
        ∃ p : Player, (h.playerId, p) ∈ [("a", (⟨⟨0,0,0⟩, true⟩ : Player))] ∧
          p.isAlive = true ∧
          Vec3.dist m.position p.position
            < Weapons.COLLISION_AIRCRAFT + Weapons.MISSILE_PROXIMITY_FUSE) ∧
    ((Weapons.checkMissileCollisions [("a", ⟨⟨0,0,0⟩, true⟩)]
        [⟨"m1", "a", ⟨1,0,0⟩, ⟨0,0,0⟩, none, 0⟩]).1.map MissileHit.missileId).Nodup ∧
    (∀ h ∈ (Weapons.checkMissileCollisions [("a", ⟨⟨0,0,0⟩, true⟩)]
        [⟨"m1", "a", ⟨1,0,0⟩, ⟨0,0,0⟩, none, 0⟩]).1,
      h.missileId ∉ (Weapons.checkMissileCollisions [("a", ⟨⟨0,0,0⟩, true⟩)]
        [⟨"m1", "a", ⟨1,0,0⟩, ⟨0,0,0⟩, none, 0⟩]).2.map Missile.id) ∧
    (∀ m ∈ [(⟨"m1", "a", ⟨1,0,0⟩, ⟨0,0,0⟩, none, 0⟩ : Missile)],
      (∀ pr ∈ [("a", (⟨⟨0,0,0⟩, true⟩ : Player))], pr.1 ≠ m.ownerId →
        pr.2.isAlive = true →
        ¬ Vec3.dist m.position pr.2.position
            < Weapons.COLLISION_AIRCRAFT + Weapons.MISSILE_PROXIMITY_FUSE) →
      m ∈ (Weapons.checkMissileCollisions [("a", ⟨⟨0,0,0⟩, true⟩)]
        [⟨"m1", "a", ⟨1,0,0⟩, ⟨0,0,0⟩, none, 0⟩]).2 ∧
      ∀ h ∈ (Weapons.checkMissileCollisions [("a", ⟨⟨0,0,0⟩, true⟩)]
        [⟨"m1", "a", ⟨1,0,0⟩, ⟨0,0,0⟩, none, 0⟩]).1, h.missileId ≠ m.id) :=
  c8_missile_collision_resolution [("a", ⟨⟨0,0,0⟩, true⟩)]
    [⟨"m1", "a", ⟨1,0,0⟩, ⟨0,0,0⟩, none, 0⟩] (by simp)

theorem mapGet_append_right {α : Type} (l : List (String × α)) (k : String) (v : α)
    (h : mapGet l k = none) : mapGet (l ++ [(k, v)]) k = some v := by
  unfold mapGet at *
  rw [List.find?_append]
  have hf : (l.find? fun pr => pr.1 == k) = none := by
    cases hf : l.find? fun pr => pr.1 == k
    · rfl
    · rw [hf] at h; simp at h
  rw [hf]
  simp

theorem mapGet_mapSet_self {α : Type} (l : List (String × α)) (k : String) (v : α)
    (h : (mapGet l k).isSome = true) : mapGet (mapSet l k v) k = some v := by
  have hfs : (l.find? fun pr => pr.1 == k).isSome = true := by
    unfold mapGet at h
    cases hf : l.find? fun pr => pr.1 == k
    · rw [hf] at h; simp at h
    · rfl
  unfold mapSet
  rw [if_pos hfs]
  unfold mapGet
  rw [List.find?_map]
  have hcomp : ((fun pr : String × α => pr.1 == k) ∘
      fun pr : String × α => if pr.1 == k then (k, v) else pr)
      = fun pr : String × α => pr.1 == k := by
    funext pr
    by_cases hk : pr.1 = k
    · simp [hk]
    · simp [hk]
  rw [hcomp]
  obtain ⟨pr0, hpr0⟩ := Option.isSome_iff_exists.mp hfs
  rw [hpr0]
  have hkey := List.find?_some hpr0
  simp only [Option.map_some']
  rw [show (if pr0.1 == k then (k, v) else pr0) = (k, v) by simp [hkey]]

theorem mapGet_update_dr (now dt : ℝ) (l : List (String × RemotePlayerDR)) (k : String) :
    mapGet (DeadReckoning.update now dt l) k
      = (mapGet l k).map (DeadReckoning.stepDR now dt) := by
  unfold mapGet DeadReckoning.update
  rw [List.find?_map]
  have hcomp : ((fun pr : String × RemotePlayerDR => pr.1 == k) ∘
      fun pr : String × RemotePlayerDR => (pr.1, DeadReckoning.stepDR now dt pr.2))
      = fun pr : String × RemotePlayerDR => pr.1 == k := rfl
  rw [hcomp]
  cases hf : l.find? fun pr => pr.1 == k <;> rfl

theorem stepDR_alpha_zero (now dt : ℝ) (cp : Vec3) (co : Quat) (cv : Vec3) (t0 : ℝ)
    (rp : Vec3) (ro : Quat) (off : Vec3) :
    DeadReckoning.stepDR now dt ⟨cp, co, cv, t0, rp, ro, off, 0⟩
      = ⟨cp, co, cv, t0,
         cp + (min ((now - t0) / 1000) (DeadReckoning.MAX_EXTRAPOLATION / 1000)) • cv,
         co, off, 0⟩ := by
  simp only [DeadReckoning.stepDR, DeadReckoning.extrapolatePosition]
  norm_num

theorem applyUpdates_nil (l : List (String × RemotePlayerDR)) :
    DeadReckoning.applyUpdates [] l = l := rfl

theorem applyUpdates_cons (c : ℝ × ℝ) (cs : List (ℝ × ℝ))
    (l : List (String × RemotePlayerDR)) :
    DeadReckoning.applyUpdates (c :: cs) l
      = DeadReckoning.applyUpdates cs (DeadReckoning.update c.1 c.2 l) := rfl

theorem applyUpdates_append (a b : List (ℝ × ℝ)) (l : List (String × RemotePlayerDR)) :
    DeadReckoning.applyUpdates (a ++ b) l
      = DeadReckoning.applyUpdates b (DeadReckoning.applyUpdates a l) := by
  unfold DeadReckoning.applyUpdates
  rw [List.foldl_append]

theorem applyUpdates_alpha_zero_invariant (calls : List (ℝ × ℝ)) (id : String)
    (cp : Vec3) (co : Quat) (cv : Vec3) (t0 : ℝ) :
    ∀ (l : List (String × RemotePlayerDR)) (rp : Vec3) (ro : Quat) (off : Vec3),
      mapGet l id = some ⟨cp, co, cv, t0, rp, ro, off, 0⟩ →
      ∃ rp' ro', mapGet (DeadReckoning.applyUpdates calls l) id
        = some ⟨cp, co, cv, t0, rp', ro', off, 0⟩ := by
  induction calls with
  | nil => exact fun l rp ro off h => ⟨rp, ro, h⟩
  | cons c cs ih =>
    intro l rp ro off h
    rw [applyUpdates_cons]
    apply ih (DeadReckoning.update c.1 c.2 l)
      (cp + (min ((c.1 - t0) / 1000) (DeadReckoning.MAX_EXTRAPOLATION / 1000)) • cv) co off
    rw [mapGet_update_dr, h]
    simp only [Option.map_some']
    rw [stepDR_alpha_zero]

/-- C5: for a remote entity first seen through a single network sample
(position, orientation, velocity, timestamp) arriving at wall-clock time
`t0`, after any nonempty sequence of `update` calls whose last call happens
at wall-clock time `t0 + T`, `getRenderState` returns exactly
`confirmedPosition + confirmedVelocity · min(T, maxExtrapolation)` (times in
seconds, the clamp window being 500 ms) and the confirmed orientation.
(`initPlayer` stamps the confirmed state with the arrival time `t0`, not with
the sample's own timestamp field, so elapsed time is measured from arrival.) -/
theorem c5_single_sample_render (reg : List (String × RemotePlayerDR)) (id : String)
    (pos : Vec3) (ori : Quat) (vel : Vec3) (ts t0 T dtl : ℝ) (pre : List (ℝ × ℝ))
    (hunseen : mapGet reg id = none) :
    DeadReckoning.getRenderState id
      (DeadReckoning.applyUpdates (pre ++ [(t0 + T, dtl)])
        (DeadReckoning.receiveUpdate t0 id pos ori vel ts reg))
      = some (pos + (min (T / 1000) (DeadReckoning.MAX_EXTRAPOLATION / 1000)) • vel, ori) := by
  have hinit : DeadReckoning.receiveUpdate t0 id pos ori vel ts reg
      = reg ++ [(id, ⟨pos, ori, vel, t0, pos, ori, ⟨0, 0, 0⟩, 0⟩)] := by
    unfold DeadReckoning.receiveUpdate
    rw [hunseen]
    unfold DeadReckoning.initPlayer mapSet
    rw [if_neg]
    intro hcon
    unfold mapGet at hunseen
    cases hf : reg.find? fun pr => pr.1 == id
    · rw [hf] at hcon; simp at hcon
    · rw [hf] at hunseen; simp at hunseen
  rw [hinit, applyUpdates_append]
  obtain ⟨rp', ro', hmid⟩ := applyUpdates_alpha_zero_invariant pre id pos ori vel t0 _ pos ori
    ⟨0, 0, 0⟩ (mapGet_append_right reg id _ hunseen)
  have hfin : mapGet (DeadReckoning.applyUpdates [(t0 + T, dtl)]
      (DeadReckoning.applyUpdates pre
        (reg ++ [(id, ⟨pos, ori, vel, t0, pos, ori, ⟨0, 0, 0⟩, 0⟩)]))) id
      = some ⟨pos, ori, vel, t0,
          pos + (min ((t0 + T - t0) / 1000) (DeadReckoning.MAX_EXTRAPOLATION / 1000)) • vel,
          ori, ⟨0, 0, 0⟩, 0⟩ := by
    rw [applyUpdates_cons, applyUpdates_nil, mapGet_update_dr, hmid]
    simp only [Option.map_some']
    rw [stepDR_alpha_zero]
  unfold DeadReckoning.getRenderState
  rw [hfin]
  simp only [Option.map_some']
  have hT : t0 + T - t0 = T := by ring
  rw [hT]

/-- Witness for C5: one sample arriving at t0 = 0, one later tick at
T = 100 ms. -/
theorem c5_single_sample_witness :
    DeadReckoning.getRenderState "p"
      (DeadReckoning.applyUpdates ([] ++ [((0:ℝ) + 100, 0.016)])
        (DeadReckoning.receiveUpdate 0 "p" ⟨1, 2, 3⟩ ⟨0, 0, 0, 1⟩ ⟨10, 0, 0⟩ 0 []))
      = some ((⟨1, 2, 3⟩ : Vec3)
          + (min ((100:ℝ) / 1000) (DeadReckoning.MAX_EXTRAPOLATION / 1000)) • (⟨10, 0, 0⟩ : Vec3),
          (⟨0, 0, 0, 1⟩ : Quat)) :=
  c5_single_sample_render [] "p" ⟨1, 2, 3⟩ ⟨0, 0, 0, 1⟩ ⟨10, 0, 0⟩ 0 0 100 0.016 [] rfl

theorem receiveUpdate_snap (reg : List (String × RemotePlayerDR)) (id : String)
    (e : RemotePlayerDR) (pos : Vec3) (ori : Quat) (vel : Vec3) (ts now : ℝ)
    (hseen : mapGet reg id = some e)
    (herr : (pos - (e.confirmedPosition
        + ((ts - e.confirmedTimestamp) / 1000) • e.confirmedVelocity)).norm
      > DeadReckoning.SNAP_THRESHOLD) :
    DeadReckoning.receiveUpdate now id pos ori vel ts reg
      = mapSet reg id ⟨pos, ori, vel, ts, pos, ori, ⟨0, 0, 0⟩, 0⟩ := by
  unfold DeadReckoning.receiveUpdate
  rw [hseen]
  simp only [DeadReckoning.extrapolatePosition]
  rw [if_pos herr]

/-- C6 (amended): an incoming sample whose prediction error exceeds the snap
threshold resets the correction alpha to 0 and sets the render position to
the sample position *immediately within `receiveUpdate`*; on the following
`update(dt)` tick the render position equals the sample position
extrapolated by the sample velocity over the (clamped) time elapsed from the
sample timestamp to that tick's wall clock — it equals the sample position
exactly only when the sample velocity is zero or no time has elapsed. -/
theorem c6_snap_resets_and_extrapolates (reg : List (String × RemotePlayerDR))
    (id : String) (e : RemotePlayerDR) (pos : Vec3) (ori : Quat) (vel : Vec3)
    (ts now now2 dt2 : ℝ) (hseen : mapGet reg id = some e)
    (herr : (pos - (e.confirmedPosition
        + ((ts - e.confirmedTimestamp) / 1000) • e.confirmedVelocity)).norm
      > DeadReckoning.SNAP_THRESHOLD) :
    mapGet (DeadReckoning.receiveUpdate now id pos ori vel ts reg) id
      = some ⟨pos, ori, vel, ts, pos, ori, ⟨0, 0, 0⟩, 0⟩ ∧
    DeadReckoning.getRenderState id
      (DeadReckoning.update now2 dt2 (DeadReckoning.receiveUpdate now id pos ori vel ts reg))
      = some (pos + (min ((now2 - ts) / 1000) (DeadReckoning.MAX_EXTRAPOLATION / 1000)) • vel,
          ori) := by
  have hrecv := receiveUpdate_snap reg id e pos ori vel ts now hseen herr
  have hget : mapGet (DeadReckoning.receiveUpdate now id pos ori vel ts reg) id
      = some ⟨pos, ori, vel, ts, pos, ori, ⟨0, 0, 0⟩, 0⟩ := by
    rw [hrecv]
    exact mapGet_mapSet_self reg id _ (by rw [hseen]; rfl)
  refine ⟨hget, ?_⟩
  unfold DeadReckoning.getRenderState
  rw [mapGet_update_dr, hget]
  simp only [Option.map_some']
  rw [stepDR_alpha_zero]

/-- Witness for C6's amended theorem: a tracked entity confirmed at the
origin with zero velocity receives a sample 100 m away (error 100 > 50);
the sample arrives at t = 1005 with timestamp 1000, and the next tick runs
at t = 1100. -/
theorem c6_snap_witness :
    mapGet (DeadReckoning.receiveUpdate 1005 "p" ⟨100, 0, 0⟩ ⟨0, 0, 0, 1⟩ ⟨100, 0, 0⟩ 1000
        [("p", ⟨⟨0, 0, 0⟩, ⟨0, 0, 0, 1⟩, ⟨0, 0, 0⟩, 0, ⟨0, 0, 0⟩, ⟨0, 0, 0, 1⟩, ⟨0, 0, 0⟩, 0⟩)])
        "p"
      = some ⟨⟨100, 0, 0⟩, ⟨0, 0, 0, 1⟩, ⟨100, 0, 0⟩, 1000, ⟨100, 0, 0⟩, ⟨0, 0, 0, 1⟩,
          ⟨0, 0, 0⟩, 0⟩ ∧
    DeadReckoning.getRenderState "p"
      (DeadReckoning.update 1100 0.1
        (DeadReckoning.receiveUpdate 1005 "p" ⟨100, 0, 0⟩ ⟨0, 0, 0, 1⟩ ⟨100, 0, 0⟩ 1000
          [("p", ⟨⟨0, 0, 0⟩, ⟨0, 0, 0, 1⟩, ⟨0, 0, 0⟩, 0, ⟨0, 0, 0⟩, ⟨0, 0, 0, 1⟩, ⟨0, 0, 0⟩, 0⟩)]))
      = some ((⟨100, 0, 0⟩ : Vec3)
          + (min (((1100 : ℝ) - 1000) / 1000) (DeadReckoning.MAX_EXTRAPOLATION / 1000))
            • (⟨100, 0, 0⟩ : Vec3), (⟨0, 0, 0, 1⟩ : Quat)) :=
  c6_snap_resets_and_extrapolates
    [("p", ⟨⟨0, 0, 0⟩, ⟨0, 0, 0, 1⟩, ⟨0, 0, 0⟩, 0, ⟨0, 0, 0⟩, ⟨0, 0, 0, 1⟩, ⟨0, 0, 0⟩, 0⟩)]
    "p" ⟨⟨0, 0, 0⟩, ⟨0, 0, 0, 1⟩, ⟨0, 0, 0⟩, 0, ⟨0, 0, 0⟩, ⟨0, 0, 0, 1⟩, ⟨0, 0, 0⟩, 0⟩
    ⟨100, 0, 0⟩ ⟨0, 0, 0, 1⟩ ⟨100, 0, 0⟩ 1000 1005 1100 0.1 rfl
    (by
      show ((⟨100, 0, 0⟩ : Vec3) - ((⟨0, 0, 0⟩ : Vec3)
        + (((1000 : ℝ) - 0) / 1000) • (⟨0, 0, 0⟩ : Vec3))).norm > DeadReckoning.SNAP_THRESHOLD
      have h1 : ((⟨100, 0, 0⟩ : Vec3) - ((⟨0, 0, 0⟩ : Vec3)
          + (((1000 : ℝ) - 0) / 1000) • (⟨0, 0, 0⟩ : Vec3))) = ⟨100, 0, 0⟩ := by
        ext <;> simp
      rw [h1, Vec3.norm_eval _ 100 (by norm_num) (by norm_num)]
      simp only [DeadReckoning.SNAP_THRESHOLD]
      norm_num)

/-- C6 counterexample: with the witness's data — prediction error 100, above
the snap threshold 50 — the render position on the *following tick* (wall
clock 1100, sample timestamp 1000, sample velocity (100,0,0)) is
(110, 0, 0), not the sample position (100, 0, 0): the claim's "render
position equals the new sample position exactly on the following tick" is
false; the correction-alpha reset itself does hold. -/
theorem c6_counterexample :
    ((⟨100, 0, 0⟩ : Vec3) - ((⟨0, 0, 0⟩ : Vec3)
        + (((1000 : ℝ) - 0) / 1000) • (⟨0, 0, 0⟩ : Vec3))).norm
      > DeadReckoning.SNAP_THRESHOLD ∧
    DeadReckoning.getRenderState "p"
      (DeadReckoning.update 1100 0.1
        (DeadReckoning.receiveUpdate 1005 "p" ⟨100, 0, 0⟩ ⟨0, 0, 0, 1⟩ ⟨100, 0, 0⟩ 1000
          [("p", ⟨⟨0, 0, 0⟩, ⟨0, 0, 0, 1⟩, ⟨0, 0, 0⟩, 0, ⟨0, 0, 0⟩, ⟨0, 0, 0, 1⟩, ⟨0, 0, 0⟩, 0⟩)]))
      = some (⟨110, 0, 0⟩, ⟨0, 0, 0, 1⟩) ∧
    (⟨110, 0, 0⟩ : Vec3) ≠ ⟨100, 0, 0⟩ := by
  have h1 : ((⟨100, 0, 0⟩ : Vec3) - ((⟨0, 0, 0⟩ : Vec3)
      + (((1000 : ℝ) - 0) / 1000) • (⟨0, 0, 0⟩ : Vec3))) = ⟨100, 0, 0⟩ := by
    ext <;> simp
  have herr : ((⟨100, 0, 0⟩ : Vec3) - ((⟨0, 0, 0⟩ : Vec3)
      + (((1000 : ℝ) - 0) / 1000) • (⟨0, 0, 0⟩ : Vec3))).norm
      > DeadReckoning.SNAP_THRESHOLD := by
    rw [h1, Vec3.norm_eval _ 100 (by norm_num) (by norm_num)]
    simp only [DeadReckoning.SNAP_THRESHOLD]
    norm_num
  refine ⟨herr, ?_, ?_⟩
  · have hrecv := receiveUpdate_snap
      [("p", ⟨⟨0, 0, 0⟩, ⟨0, 0, 0, 1⟩, ⟨0, 0, 0⟩, 0, ⟨0, 0, 0⟩, ⟨0, 0, 0, 1⟩, ⟨0, 0, 0⟩, 0⟩)]
      "p" ⟨⟨0, 0, 0⟩, ⟨0, 0, 0, 1⟩, ⟨0, 0, 0⟩, 0, ⟨0, 0, 0⟩, ⟨0, 0, 0, 1⟩, ⟨0, 0, 0⟩, 0⟩
      ⟨100, 0, 0⟩ ⟨0, 0, 0, 1⟩ ⟨100, 0, 0⟩ 1000 1005 rfl herr
    have hget : mapGet (DeadReckoning.receiveUpdate 1005 "p" ⟨100, 0, 0⟩ ⟨0, 0, 0, 1⟩
        ⟨100, 0, 0⟩ 1000
        [("p", ⟨⟨0, 0, 0⟩, ⟨0, 0, 0, 1⟩, ⟨0, 0, 0⟩, 0, ⟨0, 0, 0⟩, ⟨0, 0, 0, 1⟩, ⟨0, 0, 0⟩, 0⟩)])
        "p" = some ⟨⟨100, 0, 0⟩, ⟨0, 0, 0, 1⟩, ⟨100, 0, 0⟩, 1000, ⟨100, 0, 0⟩,
          ⟨0, 0, 0, 1⟩, ⟨0, 0, 0⟩, 0⟩ := by
      rw [hrecv]
      exact mapGet_mapSet_self _ "p" _ rfl
    unfold DeadReckoning.getRenderState
    rw [mapGet_update_dr, hget]
    simp only [Option.map_some']
    rw [stepDR_alpha_zero]
    have hmin : min (((1100 : ℝ) - 1000) / 1000) (DeadReckoning.MAX_EXTRAPOLATION / 1000)
        = 0.1 := by
      simp only [DeadReckoning.MAX_EXTRAPOLATION]
      norm_num
    rw [hmin]
    have hpos : (⟨100, 0, 0⟩ : Vec3) + (0.1 : ℝ) • (⟨100, 0, 0⟩ : Vec3) = ⟨110, 0, 0⟩ := by
      ext <;> simp <;> norm_num

    rw [hpos]
  · intro hcon
    have := congrArg Vec3.x hcon
    simp at this

/-- C2: the gravity contribution to the flight model's per-tick ENU
acceleration (the difference between `calculateAcceleration` and the same
computation with the gravity constant set to 0) is the constant vector
(0, 0, −g) of the local tangent frame, and expressed in planet-fixed
coordinates at any position `p` it equals `−g • localUp p` — anti-parallel to
the local up direction at that position, which varies with `p` rather than
being a fixed global axis. -/
theorem c2_gravity_along_local_down (P : Params) (q : Quat) (throttle : ℝ) (v p : Vec3)
    (hg : 0 < P.GRAVITY) (hp : p ≠ 0) :
    FlightModel.calculateAcceleration P q throttle v
        - FlightModel.calculateAcceleration { P with GRAVITY := 0 } q throttle v
      = ⟨0, 0, -P.GRAVITY⟩ ∧
    (enuToEcef p).mulVec ⟨0, 0, -P.GRAVITY⟩ = (-P.GRAVITY) • localUp p ∧
    ((enuToEcef p).mulVec ⟨0, 0, -P.GRAVITY⟩).norm = P.GRAVITY ∧
    ∃ c : ℝ, 0 < c ∧ (enuToEcef p).mulVec ⟨0, 0, -P.GRAVITY⟩ = -(c • localUp p) := by
  have hup : (enuToEcef p).mulVec ⟨0, 0, -P.GRAVITY⟩ = (-P.GRAVITY) • localUp p := by
    unfold enuToEcef Mat3.mulVec
    ext <;> simp
  refine ⟨?_, hup, ?_, ?_⟩
  · ext <;> simp [FlightModel.calculateAcceleration] <;> ring
  · rw [hup, Vec3.norm_smul, abs_neg, abs_of_pos hg]
    unfold localUp
    rw [Vec3.norm_normalize hp]
    ring
  · refine ⟨P.GRAVITY, hg, ?_⟩
    rw [hup]
    ext <;> simp

/-- Witness for C2 at the concrete `PHYSICS` constants, identity
orientation, zero ENU velocity and position (1, 2, 2). -/
theorem c2_gravity_witness :
    FlightModel.calculateAcceleration PHYSICS ⟨0, 0, 0, 1⟩ 0.5 ⟨0, 0, 0⟩
        - FlightModel.calculateAcceleration { PHYSICS with GRAVITY := 0 } ⟨0, 0, 0, 1⟩ 0.5
            ⟨0, 0, 0⟩
      = ⟨0, 0, -PHYSICS.GRAVITY⟩ ∧
    (enuToEcef ⟨1, 2, 2⟩).mulVec ⟨0, 0, -PHYSICS.GRAVITY⟩
      = (-PHYSICS.GRAVITY) • localUp ⟨1, 2, 2⟩ ∧
    ((enuToEcef ⟨1, 2, 2⟩).mulVec ⟨0, 0, -PHYSICS.GRAVITY⟩).norm = PHYSICS.GRAVITY ∧
    ∃ c : ℝ, 0 < c ∧
      (enuToEcef ⟨1, 2, 2⟩).mulVec ⟨0, 0, -PHYSICS.GRAVITY⟩ = -(c • localUp ⟨1, 2, 2⟩) :=
  c2_gravity_along_local_down PHYSICS ⟨0, 0, 0, 1⟩ 0.5 ⟨0, 0, 0⟩ ⟨1, 2, 2⟩
    (by simp only [PHYSICS]; norm_num)
    (by
      intro h
      have := congrArg Vec3.x h
      simp at this)

theorem quat_normSq_nonneg (q : Quat) : 0 ≤ q.normSq := by
  have hx := mul_self_nonneg q.x
  have hy := mul_self_nonneg q.y
  have hz := mul_self_nonneg q.z
  have hw := mul_self_nonneg q.w
  unfold Quat.normSq; linarith

theorem quat_norm_sq (q : Quat) : q.norm * q.norm = q.normSq :=
  Real.mul_self_sqrt (quat_normSq_nonneg q)

theorem quat_norm_eval (q : Quat) (c : ℝ) (hc : 0 ≤ c)
    (h : q.x * q.x + q.y * q.y + q.z * q.z + q.w * q.w = c * c) : q.norm = c := by
  unfold Quat.norm Quat.normSq
  rw [h]
  exact Real.sqrt_mul_self hc

/-- Euler's four-square identity for the Hamilton product. -/
theorem quat_normSq_mul (l r : Quat) : (Quat.mul l r).normSq = l.normSq * r.normSq := by
  unfold Quat.mul Quat.normSq
  ring

theorem quat_normSq_fromAxisAngle {axis : Vec3} (h : axis ≠ 0) (angle : ℝ) :
    (Quat.fromAxisAngle axis angle).normSq = 1 := by
  have h1 := Vec3.norm_normalize h
  have h2 := (Vec3.normalize axis).norm_sq
  rw [h1] at h2
  have hn : (Vec3.normalize axis).x * (Vec3.normalize axis).x
      + (Vec3.normalize axis).y * (Vec3.normalize axis).y
      + (Vec3.normalize axis).z * (Vec3.normalize axis).z = 1 := by
    unfold Vec3.normSq at h2
    linarith
  have hsc := Real.sin_sq_add_cos_sq (angle / 2)
  unfold Quat.fromAxisAngle Quat.normSq
  simp only []
  nlinarith [hn, hsc]

theorem quat_normSq_normalize {q : Quat} (h : 0 < q.normSq) : q.normalize.normSq = 1 := by
  have hn : 0 < q.norm := Real.sqrt_pos.mpr h
  have hnsq := quat_norm_sq q
  unfold Quat.normalize Quat.normSq
  unfold Quat.normSq at hnsq
  field_simp
  linarith [hnsq]

theorem quat_norm_normalize {q : Quat} (h : 0 < q.normSq) : q.normalize.norm = 1 := by
  unfold Quat.norm
  rw [quat_normSq_normalize h]
  exact Real.sqrt_one

theorem updateOrientation_norm (q : Quat) (ω : Vec3) (dt : ℝ)
    (hq : q.norm = 1) (hdt : 0 < dt) :
    (FlightModel.updateOrientation q ω dt).norm = 1 := by
  unfold FlightModel.updateOrientation
  by_cases hangle : Real.sqrt (ω.x * ω.x + ω.y * ω.y + ω.z * ω.z) * dt < 0.0001
  · rw [if_pos hangle]
    exact hq
  · rw [if_neg hangle]
    push_neg at hangle
    have hsnn : 0 ≤ Real.sqrt (ω.x * ω.x + ω.y * ω.y + ω.z * ω.z) := Real.sqrt_nonneg _
    have hspos : 0 < Real.sqrt (ω.x * ω.x + ω.y * ω.y + ω.z * ω.z) := by
      rcases lt_or_eq_of_le hsnn with h' | h'
      · exact h'
      · rw [← h'] at hangle
        norm_num at hangle
    have hquot : Real.sqrt (ω.x * ω.x + ω.y * ω.y + ω.z * ω.z) * dt / dt
        = Real.sqrt (ω.x * ω.x + ω.y * ω.y + ω.z * ω.z) := by
      field_simp
    have haxis : (⟨ω.x / (Real.sqrt (ω.x * ω.x + ω.y * ω.y + ω.z * ω.z) * dt / dt),
        ω.y / (Real.sqrt (ω.x * ω.x + ω.y * ω.y + ω.z * ω.z) * dt / dt),
        ω.z / (Real.sqrt (ω.x * ω.x + ω.y * ω.y + ω.z * ω.z) * dt / dt)⟩ : Vec3) ≠ 0 := by
      intro hcon
      have hx := congrArg Vec3.x hcon
      have hy := congrArg Vec3.y hcon
      have hz := congrArg Vec3.z hcon
      simp only [Vec3.zero_x, Vec3.zero_y, Vec3.zero_z] at hx hy hz
      rw [hquot] at hx hy hz
      have hxx : ω.x = 0 := by
        field_simp at hx
        exact hx
      have hyy : ω.y = 0 := by
        field_simp at hy
        exact hy
      have hzz : ω.z = 0 := by
        field_simp at hz
        exact hz
      rw [hxx, hyy, hzz] at hspos
      norm_num at hspos
    have hunit : q.normSq = 1 := by
      have := quat_norm_sq q
      rw [hq] at this
      linarith
    apply quat_norm_normalize
    rw [quat_normSq_mul, hunit, quat_normSq_fromAxisAngle haxis]
    norm_num

/-- C9: for every aircraft state whose orientation quaternion is unit-norm,
any input and any positive dt, the orientation of the state returned by
`FlightModel.update` has norm within 1e-5 of 1 (in fact exactly 1: the
small-angle branch returns the unchanged unit quaternion, the other branch
renormalizes the product of two unit quaternions). -/
theorem c9_orientation_unit_norm (P : Params) (s : AircraftState) (i : InputState)
    (dt : ℝ) (hq : s.orientation.norm = 1) (hdt : 0 < dt) :
    |(FlightModel.update P s i dt).orientation.norm - 1| ≤ 1e-5 := by
  have horient : (FlightModel.update P s i dt).orientation
      = FlightModel.updateOrientation s.orientation
          (FlightModel.updateAngularVelocity P s.angularVelocity i
            ((Mat3.inverse (enuToEcef s.position)).mulVec s.velocity).norm dt) dt := rfl
  rw [horient, updateOrientation_norm _ _ _ hq hdt]
  norm_num

/-- Witness for C9: identity orientation, neutral input, dt = 0.1. -/
theorem c9_orientation_witness :
    |(FlightModel.update PHYSICS
        ⟨⟨1, 2, 2⟩, ⟨0, 0, 0, 1⟩, ⟨0, 0, 0⟩, ⟨0, 0, 0⟩, 0.5, 0⟩
        ⟨0, 0, 0, false, false, false, false⟩ 0.1).orientation.norm - 1| ≤ 1e-5 :=
  c9_orientation_unit_norm PHYSICS
    ⟨⟨1, 2, 2⟩, ⟨0, 0, 0, 1⟩, ⟨0, 0, 0⟩, ⟨0, 0, 0⟩, 0.5, 0⟩
    ⟨0, 0, 0, false, false, false, false⟩ 0.1
    (quat_norm_eval _ 1 (by norm_num) (by norm_num)) (by norm_num)

theorem vec3_normSq_of_norm_one {v : Vec3} (h : v.norm = 1) : v.normSq = 1 := by
  have hsq := v.norm_sq
  rw [h] at hsq
  linarith

theorem vec3_normSq_lerp (c g : Vec3) (t : ℝ) (hc : c.normSq = 1) (hg : g.normSq = 1) :
    (Vec3.lerp c g t).normSq = (1 - t) ^ 2 + t ^ 2 + 2 * t * (1 - t) * (c.dot g) := by
  unfold Vec3.normSq at *
  unfold Vec3.lerp Vec3.dot
  simp only [Vec3.add_x, Vec3.add_y, Vec3.add_z, Vec3.smul_x, Vec3.smul_y, Vec3.smul_z]
  linear_combination ((1 - t) ^ 2) * hc + (t ^ 2) * hg

theorem vec3_dot_lerp_left (c g : Vec3) (t : ℝ) (hg : g.normSq = 1) :
    (Vec3.lerp c g t).dot g = (1 - t) * (c.dot g) + t := by
  unfold Vec3.normSq at hg
  unfold Vec3.lerp Vec3.dot
  simp only [Vec3.add_x, Vec3.add_y, Vec3.add_z, Vec3.smul_x, Vec3.smul_y, Vec3.smul_z]
  linear_combination t * hg

theorem vec3_normalize_dot (w g : Vec3) : (Vec3.normalize w).dot g = w.dot g / w.norm := by
  unfold Vec3.normalize Vec3.dot
  ring

theorem vec3_smul_norm_normalize {v : Vec3} (h : v ≠ 0) :
    v.norm • Vec3.normalize v = v := by
  have hn := Vec3.norm_pos_of_ne_zero h
  unfold Vec3.normalize
  ext <;> simp <;> field_simp

/-- The cosine ratio fed to `arccos` always lies in [−1, 1]. -/
theorem cos_ratio_mem (u v : Vec3) :
    -1 ≤ u.dot v / (u.norm * v.norm) ∧ u.dot v / (u.norm * v.norm) ≤ 1 := by
  have habs := Vec3.abs_dot_le u v
  have hnn : 0 ≤ u.norm * v.norm := mul_nonneg u.norm_nonneg v.norm_nonneg
  rcases eq_or_lt_of_le hnn with h0 | hpos
  · rw [← h0]
    norm_num
  · constructor
    · rw [le_div_iff hpos]
      have := abs_le.mp habs
      linarith [this.1]
    · rw [div_le_one hpos]
      have := abs_le.mp habs
      linarith [this.2]

theorem angleBetween_pos_smul_left {k : ℝ} (hk : 0 < k) (u v : Vec3) :
    angleBetween (k • u) v = angleBetween u v := by
  unfold angleBetween
  rw [Vec3.norm_smul, abs_of_pos hk]
  congr 1
  have hd : (k • u).dot v = k * u.dot v := by
    unfold Vec3.dot
    simp only [Vec3.smul_x, Vec3.smul_y, Vec3.smul_z]
    ring
  rw [hd, mul_assoc, mul_div_mul_left _ _ (ne_of_gt hk)]

theorem angleBetween_pos_smul_right {k : ℝ} (hk : 0 < k) (u v : Vec3) :
    angleBetween u (k • v) = angleBetween u v := by
  unfold angleBetween
  rw [Vec3.norm_smul, abs_of_pos hk]
  congr 1
  have hd : u.dot (k • v) = k * u.dot v := by
    unfold Vec3.dot
    simp only [Vec3.smul_x, Vec3.smul_y, Vec3.smul_z]
    ring
  rw [hd]
  rw [show u.norm * (k * v.norm) = k * (u.norm * v.norm) by ring,
    mul_div_mul_left _ _ (ne_of_gt hk)]

/-- Scalar core of the homing-blend analysis: with `a` the cosine between the
current direction and the line of sight (strictly between −1 and 1), blend
fraction `t ∈ (0, 1]`, and `N` the magnitude of the lerp result, the blended
direction has strictly larger cosine to the line of sight: `(1−t)a + t > aN`
(and `N > 0`). -/
theorem blend_cos_increase {a t N : ℝ} (ha1 : -1 < a) (ha2 : a < 1) (ht0 : 0 < t)
    (ht1 : t ≤ 1) (hN : 0 ≤ N)
    (hN2 : N * N = (1 - t) ^ 2 + t ^ 2 + 2 * t * (1 - t) * a) :
    0 < N ∧ a * N < (1 - t) * a + t := by
  have hNpos : 0 < N := by
    rcases lt_or_eq_of_le hN with h | h
    · exact h
    · exfalso
      rw [← h] at hN2
      nlinarith [sq_nonneg (1 - 2 * t)]
  have hNsq_le : N * N ≤ 1 := by
    nlinarith [mul_nonneg (mul_nonneg ht0.le (sub_nonneg.mpr ht1))
      (by linarith : (0:ℝ) ≤ 1 - a)]
  have hNle : N ≤ 1 := by nlinarith
  refine ⟨hNpos, ?_⟩
  rcases le_or_lt 0 a with hap | han
  · have h1 : a * N ≤ a := by nlinarith
    have h2 : a < (1 - t) * a + t := by nlinarith
    linarith
  · rcases le_or_lt 0 ((1 - t) * a + t) with hL | hL
    · have : a * N < 0 := mul_neg_of_neg_of_pos han hNpos
      linarith
    · have hkey : t + 2 * (1 - t) * a < 0 := by nlinarith
      have hdiff : a * a * (N * N) - ((1 - t) * a + t) ^ 2
          = t * ((a * a - 1) * (t + 2 * (1 - t) * a)) := by
        rw [hN2]; ring
      have hfac : 0 < (a * a - 1) * (t + 2 * (1 - t) * a) :=
        mul_pos_of_neg_of_neg (by nlinarith) hkey
      have hpos : 0 < a * a * (N * N) - ((1 - t) * a + t) ^ 2 := by
        rw [hdiff]
        exact mul_pos ht0 hfac
      have hsum : a * N + ((1 - t) * a + t) < 0 := by
        have : a * N < 0 := mul_neg_of_neg_of_pos han hNpos
        linarith
      nlinarith [hpos, hsum]

/-- C4 (amended): for a homing missile with a locked, live target, one
`updateMissiles` tick (whose per-missile body is `stepMissile`) keeps the
missile in the registry with (i) its velocity magnitude reapplied as the
configured missile speed, (ii) the angle between its velocity direction and
the line of sight (taken at the position where the blend is computed)
*strictly decreased* whenever the direction is neither aligned nor exactly
opposite to the line of sight, and (iii) no overshoot: the new velocity is a
nonnegative combination of the old direction and the line-of-sight
direction, so it never rotates past the line of sight.  The claim's
quantitative bound — decrease at most `turnRate·dt` radians per tick — does
*not* hold and is dropped (see the counterexample). -/
theorem c4_homing_blend (ws : WeaponsState) (players : List (String × Player))
    (m : Missile) (tid : String) (target : Player) (now dt : ℝ)
    (hm : m ∈ ws.missiles)
    (htid : m.targetId = some tid)
    (htarget : mapGet players tid = some target)
    (halive : target.isAlive = true)
    (hnotexp : ¬ now - m.createdAt > Weapons.MISSILE_LIFETIME)
    (hv : m.velocity ≠ 0)
    (htt : target.position - m.position ≠ 0)
    (hdt : 0 < dt)
    (ha1 : -1 < (Vec3.normalize m.velocity).dot (Vec3.normalize (target.position - m.position)))
    (ha2 : (Vec3.normalize m.velocity).dot (Vec3.normalize (target.position - m.position)) < 1) :
    ∃ m', Weapons.stepMissile now dt players m = some m' ∧
      m' ∈ (Weapons.updateMissiles now dt players ws).missiles ∧
      m'.velocity.norm = Weapons.MISSILE_SPEED ∧
      angleBetween m'.velocity (target.position - m.position)
        < angleBetween m.velocity (target.position - m.position) ∧
      (∃ α β : ℝ, 0 ≤ α ∧ 0 ≤ β ∧
        m'.velocity = α • Vec3.normalize m.velocity
          + β • Vec3.normalize (target.position - m.position)) ∧
      m'.position = m.position + dt • m'.velocity := by
  have hc : (Vec3.normalize m.velocity).norm = 1 := Vec3.norm_normalize hv
  have hg : (Vec3.normalize (target.position - m.position)).norm = 1 := Vec3.norm_normalize htt
  have hcsq := vec3_normSq_of_norm_one hc
  have hgsq := vec3_normSq_of_norm_one hg
  have ht0 : 0 < min (Weapons.MISSILE_TURN_RATE * dt) 1 := by
    apply lt_min _ one_pos
    apply mul_pos _ hdt
    simp only [Weapons.MISSILE_TURN_RATE]
    norm_num
  have ht1 : min (Weapons.MISSILE_TURN_RATE * dt) 1 ≤ 1 := min_le_right _ _
  have hN2 : (Vec3.lerp (Vec3.normalize m.velocity)
      (Vec3.normalize (target.position - m.position))
      (min (Weapons.MISSILE_TURN_RATE * dt) 1)).normSq
      = (1 - min (Weapons.MISSILE_TURN_RATE * dt) 1) ^ 2
        + (min (Weapons.MISSILE_TURN_RATE * dt) 1) ^ 2
        + 2 * min (Weapons.MISSILE_TURN_RATE * dt) 1
          * (1 - min (Weapons.MISSILE_TURN_RATE * dt) 1)
          * ((Vec3.normalize m.velocity).dot (Vec3.normalize (target.position - m.position))) :=
    vec3_normSq_lerp _ _ _ hcsq hgsq
  obtain ⟨hNpos, hgain⟩ := blend_cos_increase ha1 ha2 ht0 ht1
    (Vec3.norm_nonneg _) (by rw [Vec3.norm_sq]; exact hN2)
  have hwne : Vec3.lerp (Vec3.normalize m.velocity)
      (Vec3.normalize (target.position - m.position))
      (min (Weapons.MISSILE_TURN_RATE * dt) 1) ≠ 0 := by
    intro hcon
    rw [hcon] at hNpos
    have : (0 : Vec3).norm = 0 := by
      unfold Vec3.norm Vec3.normSq
      simp [Real.sqrt_eq_zero']
    rw [this] at hNpos
    norm_num at hNpos
  have hSpos : (0 : ℝ) < Weapons.MISSILE_SPEED := by
    simp only [Weapons.MISSILE_SPEED]
    norm_num
  have hstep : Weapons.stepMissile now dt players m
      = some ⟨m.id, m.ownerId,
          m.position + dt • (Weapons.MISSILE_SPEED • Vec3.normalize
            (Vec3.lerp (Vec3.normalize m.velocity)
              (Vec3.normalize (target.position - m.position))
              (min (Weapons.MISSILE_TURN_RATE * dt) 1))),
          Weapons.MISSILE_SPEED • Vec3.normalize
            (Vec3.lerp (Vec3.normalize m.velocity)
              (Vec3.normalize (target.position - m.position))
              (min (Weapons.MISSILE_TURN_RATE * dt) 1)),
          m.targetId, m.createdAt⟩ := by
    unfold Weapons.stepMissile
    rw [if_neg hnotexp, htid]
    simp only [htarget, halive, if_true]
  refine ⟨_, hstep, ?_, ?_, ?_, ?_, ?_⟩
  · unfold Weapons.updateMissiles
    exact List.mem_filterMap.mpr ⟨m, hm, hstep⟩
  · rw [Vec3.norm_smul, Vec3.norm_normalize hwne, abs_of_pos hSpos, mul_one]
  · have hveq : m.velocity = m.velocity.norm • Vec3.normalize m.velocity :=
      (vec3_smul_norm_normalize hv).symm
    have htteq : target.position - m.position
        = (target.position - m.position).norm
            • Vec3.normalize (target.position - m.position) :=
      (vec3_smul_norm_normalize htt).symm
    have hvpos : 0 < m.velocity.norm := Vec3.norm_pos_of_ne_zero hv
    have httpos : 0 < (target.position - m.position).norm := Vec3.norm_pos_of_ne_zero htt
    calc angleBetween (Weapons.MISSILE_SPEED • Vec3.normalize
          (Vec3.lerp (Vec3.normalize m.velocity)
            (Vec3.normalize (target.position - m.position))
            (min (Weapons.MISSILE_TURN_RATE * dt) 1)))
          (target.position - m.position)
        = angleBetween (Vec3.normalize
            (Vec3.lerp (Vec3.normalize m.velocity)
              (Vec3.normalize (target.position - m.position))
              (min (Weapons.MISSILE_TURN_RATE * dt) 1)))
            (Vec3.normalize (target.position - m.position)) := by
          rw [angleBetween_pos_smul_left hSpos]
          nth_rewrite 2 [htteq]
          rw [angleBetween_pos_smul_right httpos]
      _ < angleBetween (Vec3.normalize m.velocity)
            (Vec3.normalize (target.position - m.position)) := by
          unfold angleBetween
          have hb1 := cos_ratio_mem (Vec3.normalize
            (Vec3.lerp (Vec3.normalize m.velocity)
              (Vec3.normalize (target.position - m.position))
              (min (Weapons.MISSILE_TURN_RATE * dt) 1)))
            (Vec3.normalize (target.position - m.position))
          have hb2 := cos_ratio_mem (Vec3.normalize m.velocity)
            (Vec3.normalize (target.position - m.position))
          apply Real.strictAntiOn_arccos (Set.mem_Icc.mpr ⟨hb2.1, hb2.2⟩)
            (Set.mem_Icc.mpr ⟨hb1.1, hb1.2⟩)
          have hBA : (Vec3.normalize m.velocity).dot
                (Vec3.normalize (target.position - m.position))
              < (Vec3.normalize (Vec3.lerp (Vec3.normalize m.velocity)
                  (Vec3.normalize (target.position - m.position))
                  (min (Weapons.MISSILE_TURN_RATE * dt) 1))).dot
                (Vec3.normalize (target.position - m.position)) := by
            rw [vec3_normalize_dot (Vec3.lerp (Vec3.normalize m.velocity)
              (Vec3.normalize (target.position - m.position))
              (min (Weapons.MISSILE_TURN_RATE * dt) 1))
              (Vec3.normalize (target.position - m.position))]
            rw [lt_div_iff hNpos]
            rw [vec3_dot_lerp_left _ _ _ hgsq]
            linarith [hgain]
          rw [hc, hg, Vec3.norm_normalize hwne]
          simp only [mul_one, div_one, one_mul]
          exact hBA
      _ = angleBetween m.velocity (target.position - m.position) := by
          nth_rewrite 2 [hveq]
          nth_rewrite 2 [htteq]
          rw [angleBetween_pos_smul_left hvpos, angleBetween_pos_smul_right httpos]
  · refine ⟨Weapons.MISSILE_SPEED * (1 - min (Weapons.MISSILE_TURN_RATE * dt) 1)
        / (Vec3.lerp (Vec3.normalize m.velocity)
            (Vec3.normalize (target.position - m.position))
            (min (Weapons.MISSILE_TURN_RATE * dt) 1)).norm,
      Weapons.MISSILE_SPEED * min (Weapons.MISSILE_TURN_RATE * dt) 1
        / (Vec3.lerp (Vec3.normalize m.velocity)
            (Vec3.normalize (target.position - m.position))
            (min (Weapons.MISSILE_TURN_RATE * dt) 1)).norm, ?_, ?_, ?_⟩
    · apply div_nonneg _ (Vec3.norm_nonneg _)
      apply mul_nonneg (le_of_lt hSpos)
      linarith
    · apply div_nonneg _ (Vec3.norm_nonneg _)
      exact mul_nonneg (le_of_lt hSpos) (le_of_lt ht0)
    · unfold Vec3.normalize Vec3.lerp
      ext <;> simp <;> field_simp <;> ring
  · rfl

theorem vec3_sub_zero_eval : (⟨0, 100, 0⟩ : Vec3) - ⟨0, 0, 0⟩ = ⟨0, 100, 0⟩ := by
  ext <;> simp

theorem vec3_normalize_400 : Vec3.normalize ⟨400, 0, 0⟩ = ⟨1, 0, 0⟩ := by
  unfold Vec3.normalize
  rw [Vec3.norm_eval _ 400 (by norm_num) (by norm_num)]
  ext <;> simp <;> norm_num

theorem vec3_normalize_0100 : Vec3.normalize ⟨0, 100, 0⟩ = ⟨0, 1, 0⟩ := by
  unfold Vec3.normalize
  rw [Vec3.norm_eval _ 100 (by norm_num) (by norm_num)]
  ext <;> simp <;> norm_num

theorem c4_blend_dot_zero :
    (Vec3.normalize (⟨400, 0, 0⟩ : Vec3)).dot
      (Vec3.normalize ((⟨0, 100, 0⟩ : Vec3) - ⟨0, 0, 0⟩)) = 0 := by
  rw [vec3_sub_zero_eval, vec3_normalize_400, vec3_normalize_0100]
  unfold Vec3.dot
  norm_num

/-- Witness for C4's amended theorem: a missile at the origin flying east at
400 m/s with a live, locked target 100 m to the north (line of sight at 90°
to the velocity), `dt = 1/6 s`. -/
theorem c4_homing_witness :
    ∃ m', Weapons.stepMissile 0 (1/6) [("t", ⟨⟨0, 100, 0⟩, true⟩)]
        ⟨"m", "o", ⟨0, 0, 0⟩, ⟨400, 0, 0⟩, some "t", 0⟩ = some m' ∧
      m' ∈ (Weapons.updateMissiles 0 (1/6) [("t", ⟨⟨0, 100, 0⟩, true⟩)]
        ⟨[⟨"m", "o", ⟨0, 0, 0⟩, ⟨400, 0, 0⟩, some "t", 0⟩], 0, 0⟩).missiles ∧
      m'.velocity.norm = Weapons.MISSILE_SPEED ∧
      angleBetween m'.velocity
          ((⟨0, 100, 0⟩ : Vec3) - (⟨0, 0, 0⟩ : Vec3))
        < angleBetween (⟨400, 0, 0⟩ : Vec3) ((⟨0, 100, 0⟩ : Vec3) - (⟨0, 0, 0⟩ : Vec3)) ∧
      (∃ α β : ℝ, 0 ≤ α ∧ 0 ≤ β ∧
        m'.velocity = α • Vec3.normalize (⟨400, 0, 0⟩ : Vec3)
          + β • Vec3.normalize ((⟨0, 100, 0⟩ : Vec3) - (⟨0, 0, 0⟩ : Vec3))) ∧
      m'.position = (⟨0, 0, 0⟩ : Vec3) + (1/6 : ℝ) • m'.velocity :=
  c4_homing_blend ⟨[⟨"m", "o", ⟨0, 0, 0⟩, ⟨400, 0, 0⟩, some "t", 0⟩], 0, 0⟩
    [("t", ⟨⟨0, 100, 0⟩, true⟩)] ⟨"m", "o", ⟨0, 0, 0⟩, ⟨400, 0, 0⟩, some "t", 0⟩
    "t" ⟨⟨0, 100, 0⟩, true⟩ 0 (1/6)
    (List.mem_singleton.mpr rfl) rfl rfl rfl
    (by simp only [Weapons.MISSILE_LIFETIME]; norm_num)
    (by
      intro h
      have := congrArg Vec3.x h
      simp at this)
    (by
      intro h
      have := congrArg Vec3.y h
      simp at this)
    (by norm_num)
    (by rw [c4_blend_dot_zero]; norm_num)
    (by rw [c4_blend_dot_zero]; norm_num)

/-- C4 counterexample: with the witness's configuration (velocity at 90° to
the line of sight, `turnRate·dt = 3·(1/6) = 1/2`), one tick turns the
velocity direction from angle π/2 to angle π/4 off the line of sight — a
decrease of π/4 ≈ 0.785 rad, strictly more than the claimed per-tick bound
`turnRate·dt = 0.5`.  (The lerp-then-normalize blend is not an angular-rate
limiter: a blend fraction `t` can rotate the direction by more than `t`
radians.) -/
theorem c4_counterexample :
    (Weapons.stepMissile 0 (1/6) [("t", ⟨⟨0, 100, 0⟩, true⟩)]
        ⟨"m", "o", ⟨0, 0, 0⟩, ⟨400, 0, 0⟩, some "t", 0⟩).map Missile.velocity
      = some ⟨200 * Real.sqrt 2, 200 * Real.sqrt 2, 0⟩ ∧
    angleBetween (⟨400, 0, 0⟩ : Vec3) ((⟨0, 100, 0⟩ : Vec3) - ⟨0, 0, 0⟩)
        - angleBetween (⟨200 * Real.sqrt 2, 200 * Real.sqrt 2, 0⟩ : Vec3)
            ((⟨0, 100, 0⟩ : Vec3) - ⟨0, 0, 0⟩)
      > Weapons.MISSILE_TURN_RATE * (1/6) := by
  have hs2 : Real.sqrt 2 * Real.sqrt 2 = 2 := Real.mul_self_sqrt (by norm_num)
  have hspos : (0:ℝ) < Real.sqrt 2 := Real.sqrt_pos.mpr (by norm_num)
  have hsne : Real.sqrt 2 ≠ 0 := ne_of_gt hspos
  constructor
  · have hmin : min (Weapons.MISSILE_TURN_RATE * (1/6 : ℝ)) 1 = 1/2 := by
      simp only [Weapons.MISSILE_TURN_RATE]
      rw [min_eq_left] <;> norm_num
    have hlerp : Vec3.lerp ⟨1, 0, 0⟩ ⟨0, 1, 0⟩ (1/2) = ⟨1/2, 1/2, 0⟩ := by
      unfold Vec3.lerp
      ext <;> simp <;> norm_num
    have hcomp : (1/2 : ℝ) / (Real.sqrt 2 / 2) = Real.sqrt 2 / 2 := by
      field_simp
    have hnhalf : Vec3.normalize ⟨1/2, 1/2, 0⟩
        = ⟨Real.sqrt 2 / 2, Real.sqrt 2 / 2, 0⟩ := by
      unfold Vec3.normalize
      rw [Vec3.norm_eval _ (Real.sqrt 2 / 2) (by positivity)
        (by linear_combination (-(1:ℝ)/4) * hs2)]
      ext
      · exact hcomp
      · exact hcomp
      · exact zero_div _
    have hsmul : (Weapons.MISSILE_SPEED : ℝ) • (⟨Real.sqrt 2 / 2, Real.sqrt 2 / 2, 0⟩ : Vec3)
        = ⟨200 * Real.sqrt 2, 200 * Real.sqrt 2, 0⟩ := by
      simp only [Weapons.MISSILE_SPEED]
      ext <;> simp <;> ring
    unfold Weapons.stepMissile
    rw [if_neg (by simp only [Weapons.MISSILE_LIFETIME]; norm_num)]
    simp only [vec3_sub_zero_eval, vec3_normalize_400, vec3_normalize_0100]
    rw [show mapGet [("t", (⟨⟨0, 100, 0⟩, true⟩ : Player))] "t"
      = some ⟨⟨0, 100, 0⟩, true⟩ from rfl]
    simp only [vec3_sub_zero_eval, vec3_normalize_400, vec3_normalize_0100, hmin, hlerp,
      hnhalf, hsmul]
    rfl
  · have hang1 : angleBetween (⟨400, 0, 0⟩ : Vec3) ((⟨0, 100, 0⟩ : Vec3) - ⟨0, 0, 0⟩)
        = Real.pi / 2 := by
      unfold angleBetween
      rw [vec3_sub_zero_eval]
      rw [show Vec3.dot ⟨400, 0, 0⟩ ⟨0, 100, 0⟩ = 0 by unfold Vec3.dot; norm_num]
      rw [zero_div]
      exact Real.arccos_zero
    have hang2 : angleBetween (⟨200 * Real.sqrt 2, 200 * Real.sqrt 2, 0⟩ : Vec3)
        ((⟨0, 100, 0⟩ : Vec3) - ⟨0, 0, 0⟩) = Real.pi / 4 := by
      unfold angleBetween
      rw [vec3_sub_zero_eval]
      rw [Vec3.norm_eval ⟨200 * Real.sqrt 2, 200 * Real.sqrt 2, 0⟩ 400 (by norm_num)
        (by linear_combination (80000:ℝ) * hs2)]
      rw [Vec3.norm_eval ⟨0, 100, 0⟩ 100 (by norm_num) (by norm_num)]
      rw [show Vec3.dot ⟨200 * Real.sqrt 2, 200 * Real.sqrt 2, 0⟩ ⟨0, 100, 0⟩
        = 20000 * Real.sqrt 2 by unfold Vec3.dot; ring]
      rw [show (20000 : ℝ) * Real.sqrt 2 / (400 * 100) = Real.sqrt 2 / 2 by ring]
      exact Real.arccos_eq_of_eq_cos (by positivity)
        (by linarith [Real.pi_gt_three]) (Real.cos_pi_div_four).symm
    rw [hang1, hang2]
    simp only [Weapons.MISSILE_TURN_RATE]
    have hpi := Real.pi_gt_three
    nlinarith [hpi]

/-- C10: the heap-level rendering of `FlightModel.update` never mutates its
input: after the call the argument state record and every vector/quaternion
cell it references hold exactly their old values (so every field of the
argument state — position, orientation, velocity, angularVelocity, throttle,
speed — is unchanged), and the returned state is a freshly allocated record
distinct from the argument. -/
theorem c10_update_never_mutates_input (P : Params) (σ : HeapModel.Store) (sref : ℕ)
    (input : InputState) (dt : ℝ)
    (hs : sref < σ.nextS)
    (hp : (σ.sdata sref).position < σ.nextV)
    (hv : (σ.sdata sref).velocity < σ.nextV)
    (hav : (σ.sdata sref).angularVelocity < σ.nextV)
    (ho : (σ.sdata sref).orientation < σ.nextQ) :
    (HeapModel.update P σ sref input dt).1.sdata sref = σ.sdata sref ∧
    (HeapModel.update P σ sref input dt).1.vdata ((σ.sdata sref).position)
      = σ.vdata ((σ.sdata sref).position) ∧
    (HeapModel.update P σ sref input dt).1.vdata ((σ.sdata sref).velocity)
      = σ.vdata ((σ.sdata sref).velocity) ∧
    (HeapModel.update P σ sref input dt).1.vdata ((σ.sdata sref).angularVelocity)
      = σ.vdata ((σ.sdata sref).angularVelocity) ∧
    (HeapModel.update P σ sref input dt).1.qdata ((σ.sdata sref).orientation)
      = σ.qdata ((σ.sdata sref).orientation) ∧
    (HeapModel.update P σ sref input dt).2 = σ.nextS ∧
    (HeapModel.update P σ sref input dt).2 ≠ sref := by
  have h1 : ¬ (sref = σ.nextS) := by omega
  have h2 : ¬ ((σ.sdata sref).position = σ.nextV) := by omega
  have h3 : ¬ ((σ.sdata sref).position = σ.nextV + 1) := by omega
  have h4 : ¬ ((σ.sdata sref).position = σ.nextV + 2) := by omega
  have h5 : ¬ ((σ.sdata sref).velocity = σ.nextV) := by omega
  have h6 : ¬ ((σ.sdata sref).velocity = σ.nextV + 1) := by omega
  have h7 : ¬ ((σ.sdata sref).velocity = σ.nextV + 2) := by omega
  have h8 : ¬ ((σ.sdata sref).angularVelocity = σ.nextV) := by omega
  have h9 : ¬ ((σ.sdata sref).angularVelocity = σ.nextV + 1) := by omega
  have h10 : ¬ ((σ.sdata sref).angularVelocity = σ.nextV + 2) := by omega
  have h11 : ¬ ((σ.sdata sref).orientation = σ.nextQ) := by omega
  refine ⟨?_, ?_, ?_, ?_, ?_, ?_, ?_⟩ <;>
    simp only [HeapModel.update, HeapModel.allocS, HeapModel.allocV, HeapModel.allocQ,
      HeapModel.writeS, if_neg h1, if_neg h2, if_neg h3, if_neg h4, if_neg h5,
      if_neg h6, if_neg h7, if_neg h8, if_neg h9, if_neg h10, if_neg h11] <;>
    omega

/-- Witness for C10 at a concrete store: one state record (index 0)
referencing vector cells 0, 1, 2 and quaternion cell 0 in a store with
three vector cells, one quaternion cell and one record cell. -/
theorem c10_update_witness :
    (HeapModel.update PHYSICS
        ⟨3, fun _ => ⟨0, 0, 0⟩, 1, fun _ => ⟨0, 0, 0, 1⟩, 1, fun _ => ⟨0, 0, 1, 2, 0.5, 250⟩⟩
        0 ⟨0, 0, 0, false, false, false, false⟩ 0.1).1.sdata 0
      = (⟨3, fun _ => ⟨0, 0, 0⟩, 1, fun _ => ⟨0, 0, 0, 1⟩, 1,
          fun _ => ⟨0, 0, 1, 2, 0.5, 250⟩⟩ : HeapModel.Store).sdata 0 ∧
    (HeapModel.update PHYSICS
        ⟨3, fun _ => ⟨0, 0, 0⟩, 1, fun _ => ⟨0, 0, 0, 1⟩, 1, fun _ => ⟨0, 0, 1, 2, 0.5, 250⟩⟩
        0 ⟨0, 0, 0, false, false, false, false⟩ 0.1).1.vdata
        (((⟨3, fun _ => ⟨0, 0, 0⟩, 1, fun _ => ⟨0, 0, 0, 1⟩, 1,
          fun _ => ⟨0, 0, 1, 2, 0.5, 250⟩⟩ : HeapModel.Store).sdata 0).position)
      = (⟨3, fun _ => ⟨0, 0, 0⟩, 1, fun _ => ⟨0, 0, 0, 1⟩, 1,
          fun _ => ⟨0, 0, 1, 2, 0.5, 250⟩⟩ : HeapModel.Store).vdata
        (((⟨3, fun _ => ⟨0, 0, 0⟩, 1, fun _ => ⟨0, 0, 0, 1⟩, 1,
          fun _ => ⟨0, 0, 1, 2, 0.5, 250⟩⟩ : HeapModel.Store).sdata 0).position) ∧
    (HeapModel.update PHYSICS
        ⟨3, fun _ => ⟨0, 0, 0⟩, 1, fun _ => ⟨0, 0, 0, 1⟩, 1, fun _ => ⟨0, 0, 1, 2, 0.5, 250⟩⟩
        0 ⟨0, 0, 0, false, false, false, false⟩ 0.1).1.vdata
        (((⟨3, fun _ => ⟨0, 0, 0⟩, 1, fun _ => ⟨0, 0, 0, 1⟩, 1,
          fun _ => ⟨0, 0, 1, 2, 0.5, 250⟩⟩ : HeapModel.Store).sdata 0).velocity)
      = (⟨3, fun _ => ⟨0, 0, 0⟩, 1, fun _ => ⟨0, 0, 0, 1⟩, 1,
          fun _ => ⟨0, 0, 1, 2, 0.5, 250⟩⟩ : HeapModel.Store).vdata
        (((⟨3, fun _ => ⟨0, 0, 0⟩, 1, fun _ => ⟨0, 0, 0, 1⟩, 1,
          fun _ => ⟨0, 0, 1, 2, 0.5, 250⟩⟩ : HeapModel.Store).sdata 0).velocity) ∧
    (HeapModel.update PHYSICS
        ⟨3, fun _ => ⟨0, 0, 0⟩, 1, fun _ => ⟨0, 0, 0, 1⟩, 1, fun _ => ⟨0, 0, 1, 2, 0.5, 250⟩⟩
        0 ⟨0, 0, 0, false, false, false, false⟩ 0.1).1.vdata
        (((⟨3, fun _ => ⟨0, 0, 0⟩, 1, fun _ => ⟨0, 0, 0, 1⟩, 1,
          fun _ => ⟨0, 0, 1, 2, 0.5, 250⟩⟩ : HeapModel.Store).sdata 0).angularVelocity)
      = (⟨3, fun _ => ⟨0, 0, 0⟩, 1, fun _ => ⟨0, 0, 0, 1⟩, 1,
          fun _ => ⟨0, 0, 1, 2, 0.5, 250⟩⟩ : HeapModel.Store).vdata
        (((⟨3, fun _ => ⟨0, 0, 0⟩, 1, fun _ => ⟨0, 0, 0, 1⟩, 1,
          fun _ => ⟨0, 0, 1, 2, 0.5, 250⟩⟩ : HeapModel.Store).sdata 0).angularVelocity) ∧
    (HeapModel.update PHYSICS
        ⟨3, fun _ => ⟨0, 0, 0⟩, 1, fun _ => ⟨0, 0, 0, 1⟩, 1, fun _ => ⟨0, 0, 1, 2, 0.5, 250⟩⟩
        0 ⟨0, 0, 0, false, false, false, false⟩ 0.1).1.qdata
        (((⟨3, fun _ => ⟨0, 0, 0⟩, 1, fun _ => ⟨0, 0, 0, 1⟩, 1,
          fun _ => ⟨0, 0, 1, 2, 0.5, 250⟩⟩ : HeapModel.Store).sdata 0).orientation)
      = (⟨3, fun _ => ⟨0, 0, 0⟩, 1, fun _ => ⟨0, 0, 0, 1⟩, 1,
          fun _ => ⟨0, 0, 1, 2, 0.5, 250⟩⟩ : HeapModel.Store).qdata
        (((⟨3, fun _ => ⟨0, 0, 0⟩, 1, fun _ => ⟨0, 0, 0, 1⟩, 1,
          fun _ => ⟨0, 0, 1, 2, 0.5, 250⟩⟩ : HeapModel.Store).sdata 0).orientation) ∧
    (HeapModel.update PHYSICS
        ⟨3, fun _ => ⟨0, 0, 0⟩, 1, fun _ => ⟨0, 0, 0, 1⟩, 1, fun _ => ⟨0, 0, 1, 2, 0.5, 250⟩⟩
        0 ⟨0, 0, 0, false, false, false, false⟩ 0.1).2
      = (⟨3, fun _ => ⟨0, 0, 0⟩, 1, fun _ => ⟨0, 0, 0, 1⟩, 1,
          fun _ => ⟨0, 0, 1, 2, 0.5, 250⟩⟩ : HeapModel.Store).nextS ∧
    (HeapModel.update PHYSICS
        ⟨3, fun _ => ⟨0, 0, 0⟩, 1, fun _ => ⟨0, 0, 0, 1⟩, 1, fun _ => ⟨0, 0, 1, 2, 0.5, 250⟩⟩
        0 ⟨0, 0, 0, false, false, false, false⟩ 0.1).2 ≠ 0 :=
  c10_update_never_mutates_input PHYSICS
    ⟨3, fun _ => ⟨0, 0, 0⟩, 1, fun _ => ⟨0, 0, 0, 1⟩, 1, fun _ => ⟨0, 0, 1, 2, 0.5, 250⟩⟩
    0 ⟨0, 0, 0, false, false, false, false⟩ 0.1
    (by norm_num) (by norm_num) (by norm_num) (by norm_num) (by norm_num)
